import Mathlib

/-!
Verification of the music-news deduplication and scoring pipeline
(src/advanced_news_collector.py and src/advanced_classifier.py).

Python strings are embedded as `List Char`; Python floats as `ℚ`
(the sources only ever combine decimal literals by +, *, /, min and
comparisons, which are exact); `published_date` strings in the fixed
format YYYY-MM-DD HH:MM:SS are embedded as `Option Int` (epoch seconds;
`none` for a missing or unparsable field — in that format, string order
agrees with numeric order, and a missing field sorts below every date).
Python sets are embedded as canonically sorted duplicate-free lists
(`pySetOf`); iteration order over a Python set is unspecified, the
canonical order stands in for it (it only matters in one capped
truncation, `generate_content_hash`'s take-10).  The md5 fingerprint is
embedded as the joined pre-hash content string itself (hash equality is
used by the source only as an equality test on that string; collisions
are ignored).  Character classes (\\w, \\s, upper/lower) are the ASCII
ones; the sources' inputs are English headlines.
-/

/-- The characters of a string literal. -/
def strL (s : String) : List Char := s.data

/-- ASCII \\s, the whitespace class of Python's re module. -/
def isWsCh (c : Char) : Bool :=
  c = ' ' || c = '\t' || c = '\n' || c = '\r' || c = '\x0b' || c = '\x0c'

/-- ASCII \\w: alphanumeric or underscore. -/
def isWordCh (c : Char) : Bool := c.isAlphanum || c = '_'

/-- ASCII [A-Z]. -/
def isUpperCh (c : Char) : Bool := decide ('A' ≤ c) && decide (c ≤ 'Z')

/-- ASCII [a-z]. -/
def isLowerCh (c : Char) : Bool := decide ('a' ≤ c) && decide (c ≤ 'z')

/-- str.lower on one ASCII character. -/
def lowCh (c : Char) : Char :=
  if isUpperCh c then Char.ofNat (c.toNat + 32) else c

/-- str.lower. -/
def pyLower (s : List Char) : List Char := s.map lowCh

/-- str.strip: drop leading and trailing whitespace. -/
def pyStrip (s : List Char) : List Char :=
  List.dropWhile isWsCh (((List.dropWhile isWsCh s.reverse)).reverse)

/-- Replace every maximal run of whitespace by a single space
(re.sub of \\s+ with one space).  The flag records whether the previous
character was whitespace. -/
def collapseWsAux : Bool → List Char → List Char
  | _, [] => []
  | prevWs, c :: cs =>
    if isWsCh c then
      if prevWs then collapseWsAux true cs
      else ' ' :: collapseWsAux true cs
    else c :: collapseWsAux false cs

/-- re.sub(r'\\s+', ' ', s). -/
def collapseWs (s : List Char) : List Char := collapseWsAux false s

/-- When `p` is a literal leading block of `s`, the rest of `s` after it. -/
def chopLead : List Char → List Char → Option (List Char)
  | [], s => some s
  | _ :: _, [] => none
  | p :: ps, c :: cs => if p = c then chopLead ps cs else none

/-- re.sub(f'^{w}\\s+', '', s): remove a leading word together with the
whitespace run after it, once. -/
def stripLeadWord (w s : List Char) : List Char :=
  match chopLead w s with
  | some r =>
    match r with
    | c :: _ => if isWsCh c then List.dropWhile isWsCh r else s
    | [] => s
  | none => s

/-- re.sub(f'\\s+{w}$', '', s): remove a trailing word together with the
whitespace run before it, once. -/
def stripTailWord (w s : List Char) : List Char :=
  match chopLead w.reverse s.reverse with
  | some r =>
    match r with
    | c :: _ => if isWsCh c then (List.dropWhile isWsCh r).reverse else s
    | [] => s
  | none => s

/-- str.split() with no argument: the maximal whitespace-free words. -/
def wordsOfAux : List Char → List Char → List (List Char)
  | acc, [] => if acc.isEmpty then [] else [acc.reverse]
  | acc, c :: cs =>
    if isWsCh c then
      if acc.isEmpty then wordsOfAux [] cs else acc.reverse :: wordsOfAux [] cs
    else wordsOfAux (c :: acc) cs

/-- str.split() with no argument. -/
def wordsOf (s : List Char) : List (List Char) := wordsOfAux [] s

/-- Substring test, Python's `needle in hay`. -/
def leadsWith : List Char → List Char → Bool
  | [], _ => true
  | _ :: _, [] => false
  | p :: ps, c :: cs => p = c && leadsWith ps cs

/-- Substring test, Python's `needle in hay`. -/
def containsSub (needle : List Char) : List Char → Bool
  | [] => needle.isEmpty
  | c :: cs => leadsWith needle (c :: cs) || containsSub needle cs

/-- Code-point order on strings, as Python sorts them. -/
def lexLe : List Char → List Char → Bool
  | [], _ => true
  | _ :: _, [] => false
  | a :: as_, b :: bs =>
    if a < b then true else if b < a then false else lexLe as_ bs

/-- Stable insertion keeping a list sorted ascending by `le`. -/
def insAscBy {α : Type} (le : α → α → Bool) (x : α) : List α → List α
  | [] => [x]
  | y :: ys => if le x y then x :: y :: ys else y :: insAscBy le x ys

/-- Stable ascending sort by `le`. -/
def sortAscBy {α : Type} (le : α → α → Bool) (l : List α) : List α :=
  l.foldr (insAscBy le) []

/-- Stable insertion keeping a list sorted descending by `le`
(an element goes before the first element that is ≤ it, so equal keys
keep their original order, as Python's sorted(reverse=True) does). -/
def insDescBy {α : Type} (le : α → α → Bool) (x : α) : List α → List α
  | [] => [x]
  | y :: ys => if le y x then x :: y :: ys else y :: insDescBy le x ys

/-- Stable descending sort by `le`, Python's sorted(key, reverse=True). -/
def sortDescBy {α : Type} (le : α → α → Bool) (l : List α) : List α :=
  l.foldr (insDescBy le) []

/-- Drop adjacent duplicates of a sorted list. -/
def dedupAdj : List (List Char) → List (List Char)
  | [] => []
  | [x] => [x]
  | x :: y :: t => if x = y then dedupAdj (y :: t) else x :: dedupAdj (y :: t)

/-- A Python set of strings, embedded as its canonically sorted
duplicate-free list of members. -/
def pySetOf (l : List (List Char)) : List (List Char) := dedupAdj (sortAscBy lexLe l)

/-- Keep the first occurrence of each element, skipping ones already seen. -/
def dedupFirstAux {α : Type} [DecidableEq α] (seen : List α) : List α → List α
  | [] => []
  | x :: xs =>
    if x ∈ seen then dedupFirstAux seen xs
    else x :: dedupFirstAux (x :: seen) xs

/-- Keep the first occurrence of each element (embeds list(set(x)) where
only membership and small truncations of the result matter). -/
def dedupFirst {α : Type} [DecidableEq α] (l : List α) : List α :=
  dedupFirstAux [] l

/-- Join words with single spaces, ' '.join. -/
def joinSpace : List (List Char) → List Char
  | [] => []
  | [w] => w
  | w :: ws => w ++ ' ' :: joinSpace ws

/-- Count of a character in a string, str.count for one character. -/
def countCh (c : Char) (s : List Char) : Nat := s.count c

/-!
Embedding of re.findall for the three fixed patterns the sources use.
A match attempt is made at every position whose previous character is a
non-word character (the \b boundary); matches are non-overlapping and
scanning resumes after each match, as re.findall does.
-/

/-- One [A-Z][a-z]+ word at the head of the input: the word and the rest. -/
def capWord : List Char → Option (List Char × List Char)
  | [] => none
  | c :: cs =>
    if isUpperCh c then
      let p := cs.span isLowerCh
      if p.1.isEmpty then none else some (c :: p.1, p.2)
    else none

/-- The trailing \b of a pattern ending in a word character: the next
character must be a non-word character (or the end of the input). -/
def boundaryOkAfter : List Char → Bool
  | [] => true
  | c :: _ => !isWordCh c

/-- Cut points of the greedy (?:\s+[A-Z][a-z]+)* repetition: for each
further repetition, the matched text up to there and the rest after it. -/
def capChainAux : Nat → List Char → List Char → List (List Char × List Char)
  | 0, _, _ => []
  | fuel + 1, acc, s =>
    let p := s.span isWsCh
    if p.1.isEmpty then []
    else
      match capWord p.2 with
      | some (w, rest) =>
        (acc ++ p.1 ++ w, rest) :: capChainAux fuel (acc ++ p.1 ++ w) rest
      | none => []

/-- The last cut point whose trailing boundary holds (the regex engine
keeps the longest repetition whose \b succeeds). -/
def pickLastOk : List (List Char × List Char) → Option (List Char × List Char)
  | [] => none
  | x :: xs =>
    match pickLastOk xs with
    | some y => some y
    | none => if boundaryOkAfter x.2 then some x else none

/-- A match of \b([A-Z][a-z]+(?:\s+[A-Z][a-z]+)*)\b starting here
(the caller has checked the leading boundary). -/
def capMatchAt (s : List Char) : Option (List Char × List Char) :=
  match capWord s with
  | none => none
  | some (w, rest) =>
    pickLastOk ((w, rest) :: capChainAux (rest.length + 1) w rest)

/-- A match of \b([A-Z][a-z]+ [A-Z][a-z]+)\b starting here. -/
def twoCapAt (s : List Char) : Option (List Char × List Char) :=
  match capWord s with
  | none => none
  | some (w1, r1) =>
    match r1 with
    | [] => none
    | c :: r2 =>
      if c = ' ' then
        match capWord r2 with
        | some (w2, rest) =>
          if boundaryOkAfter rest then some (w1 ++ ' ' :: w2, rest) else none
        | none => none
      else none

/-- A match of \b([A-Z]{2,})\b starting here. -/
def allCapsAt (s : List Char) : Option (List Char × List Char) :=
  let p := s.span isUpperCh
  if 2 ≤ p.1.length && boundaryOkAfter p.2 then some (p.1, p.2) else none

/-- Non-overlapping left-to-right scan with a match attempt wherever the
previous character is a non-word character; fuel bounds the recursion
(every step consumes at least one character). -/
def scanWith (matchAt : List Char → Option (List Char × List Char)) :
    Nat → Bool → List Char → List (List Char)
  | 0, _, _ => []
  | fuel + 1, prevWord, s =>
    match s with
    | [] => []
    | c :: cs =>
      if prevWord then scanWith matchAt fuel (isWordCh c) cs
      else
        match matchAt (c :: cs) with
        | some (span, rest) => span :: scanWith matchAt fuel true rest
        | none => scanWith matchAt fuel (isWordCh c) cs

/-- re.findall(r'\b([A-Z][a-z]+(?:\s+[A-Z][a-z]+)*)\b', s). -/
def capMatches (s : List Char) : List (List Char) :=
  scanWith capMatchAt (s.length + 1) false s

/-- re.findall(r'\b([A-Z][a-z]+ [A-Z][a-z]+)\b', s). -/
def twoCapMatches (s : List Char) : List (List Char) :=
  scanWith twoCapAt (s.length + 1) false s

/-- re.findall(r'\b([A-Z]{2,})\b', s). -/
def allCapsMatches (s : List Char) : List (List Char) :=
  scanWith allCapsAt (s.length + 1) false s

/-!
The record type.  A collected news dict carries more keys than the
pipeline's decision functions ever read; the embedded record keeps
exactly the fields read by the functions under verification
(title, description, link, source, published_date) plus the two score
fields the classifier stage writes (absent = key not in the dict).
-/

/-- A news record. -/
structure News where
  title : List Char
  description : List Char
  link : List Char
  source : List Char
  published_date : Option Int
  importance_score : Option ℚ := none
  trending_score : Option ℚ := none
deriving DecidableEq

/-!  src/advanced_news_collector.py  -/

/-- AdvancedNewsCollector.popular_artists (lines 54-57). -/
def popular_artists : List (List Char) :=
  [strL "taylor swift", strL "bts", strL "blackpink", strL "drake",
   strL "ariana grande", strL "billie eilish", strL "dua lipa",
   strL "olivia rodrigo", strL "travis scott", strL "kendrick lamar"]

/-- normalize_url (lines 59-85): lower-case, keep only netloc and path
(the fragment, the query and the scheme go), strip trailing slashes,
collapse slash runs.  urlparse is embedded for the scheme://netloc/path
shape the feeds use. -/
def normalize_url (url : List Char) : List Char :=
  let s := pyLower url
  let s := s.takeWhile (fun c => !(c = '#'))
  let s := s.takeWhile (fun c => !(c = '?'))
  let s := dropScheme s
  let s := (List.dropWhile (fun c => (c = '/' : Bool)) s.reverse).reverse
  collapseSlashes false s
where
  /-- Drop everything through the first "://", when present. -/
  dropScheme (s : List Char) : List Char :=
    match findAfterScheme s with
    | some r => r
    | none => s
  findAfterScheme : List Char → Option (List Char)
    | [] => none
    | c :: cs =>
      if c = ':' && leadsWith (strL "//") cs then some (cs.drop 2)
      else findAfterScheme cs
  /-- re.sub(r'/+', '/', s); the flag records whether the previous
  character was a slash. -/
  collapseSlashes : Bool → List Char → List Char
    | _, [] => []
    | prev, c :: cs =>
      if c = '/' then
        if prev then collapseSlashes true cs else '/' :: collapseSlashes true cs
      else c :: collapseSlashes false cs

/-- The characters normalize_title keeps: \w, \s and the six quote
characters of the character class [^\w\s\'\"''""] (apostrophe, double
quote, the two smart single quotes, the two smart double quotes). -/
def isTitleKeep (c : Char) : Bool :=
  isWordCh c || isWsCh c || c = Char.ofNat 39 || c = Char.ofNat 34 ||
    c = Char.ofNat 8216 || c = Char.ofNat 8217 ||
    c = Char.ofNat 8220 || c = Char.ofNat 8221

/-- normalize_title's leading boilerplate words, in source order
(lines 99-102). -/
def boilerLeads : List (List Char) :=
  [strL "exclusive", strL "breaking", strL "watch", strL "listen",
   strL "new", strL "stream", strL "premiere", strL "first look",
   strL "video", strL "audio", strL "live", strL "official"]

/-- normalize_title's trailing boilerplate words, in source order
(line 109). -/
def boilerTails : List (List Char) :=
  [strL "watch", strL "listen", strL "video", strL "audio", strL "stream"]

/-- normalize_title (lines 87-114): lower + strip, punctuation to
spaces, whitespace runs to one space, one anchored removal pass per
boilerplate word (each applied once, in list order), final strip. -/
def normalize_title (t : List Char) : List Char :=
  let s := pyStrip (pyLower t)
  let s := s.map (fun c => if isTitleKeep c then c else ' ')
  let s := collapseWs s
  let s := boilerLeads.foldl (fun acc p => stripLeadWord p acc) s
  let s := boilerTails.foldl (fun acc w => stripTailWord w acc) s
  pyStrip s

/-- Action keywords of extract_core_keywords (line 135). -/
def actionWords : List (List Char) :=
  [strL "announces", strL "releases", strL "debuts", strL "shares",
   strL "drops", strL "reveals", strL "teases"]

/-- Music keywords of extract_core_keywords (line 142). -/
def musicTerms : List (List Char) :=
  [strL "album", strL "song", strL "tour", strL "concert",
   strL "single", strL "ep", strL "collaboration"]

/-- extract_core_keywords (lines 116-147): popular artists mentioned in
the lowered text, capitalized spans of at most three words and more than
two characters (lowered), plus matched action and music keywords. -/
def extract_core_keywords (title description : List Char) : List (List Char) :=
  let textOrig := title ++ ' ' :: description
  let text := pyLower textOrig
  let artist_names :=
    popular_artists.filter (fun a => containsSub a text) ++
      ((capMatches textOrig).filter
        (fun m => decide ((wordsOf m).length ≤ 3) && decide (2 < m.length))).map pyLower
  let action_keywords := actionWords.filter (fun a => containsSub a text)
  let music_keywords := musicTerms.filter (fun t => containsSub t text)
  pySetOf (artist_names ++ action_keywords ++ music_keywords)

/-- Stopwords of generate_content_hash (line 161). -/
def hashStops : List (List Char) :=
  [strL "the", strL "and", strL "for", strL "with", strL "from",
   strL "new", strL "has"]

/-- generate_content_hash (lines 149-168): the pre-hash content string —
core keywords united with up to ten meaningful words (length ≥ 3, not a
stopword) of the normalized title and cleaned description, sorted and
space-joined.  The md5 digest is embedded as this content string itself:
the source only compares digests for equality. -/
def generate_content_hash (title description : List Char) : List Char :=
  let core_keywords := extract_core_keywords title description
  let title_words := pySetOf (wordsOf (normalize_title title))
  let desc_words :=
    pySetOf (wordsOf ((pyLower description).filter
      (fun c => isWordCh c || isWsCh c)))
  let meaningful_words :=
    (pySetOf (title_words ++ desc_words)).filter
      (fun w => decide (3 ≤ w.length) && decide (w ∉ hashStops))
  let all_keywords := pySetOf (core_keywords ++ meaningful_words.take 10)
  joinSpace all_keywords

/-- Jaccard quotient |A ∩ B| / |A ∪ B| with the source's union > 0
guard. -/
def jaccardQ (A B : Finset (List Char)) : ℚ :=
  if 0 < (A ∪ B).card then ((A ∩ B).card : ℚ) / ((A ∪ B).card : ℚ) else 0

/-- Token set of a normalized title. -/
def tokSet (t : List Char) : Finset (List Char) :=
  (wordsOf (normalize_title t)).toFinset

/-- Keyword set calculate_title_similarity uses: the core keywords of
the title with an empty description. -/
def kwSet (t : List Char) : Finset (List Char) :=
  (extract_core_keywords t []).toFinset

/-- calculate_title_similarity (lines 170-198): 0 when either token set
is empty, otherwise 0.7 · token Jaccard + 0.3 · keyword Jaccard, the
keyword part 0 when either keyword set is empty. -/
def calculate_title_similarity (t1 t2 : List Char) : ℚ :=
  let norm1 := tokSet t1
  let norm2 := tokSet t2
  if norm1 = ∅ ∨ norm2 = ∅ then 0
  else
    let jaccard_similarity := jaccardQ norm1 norm2
    let k1 := kwSet t1
    let k2 := kwSet t2
    let keyword_similarity := if k1 ≠ ∅ ∧ k2 ≠ ∅ then jaccardQ k1 k2 else 0
    jaccard_similarity * (7/10) + keyword_similarity * (3/10)

/-- check_popular_artist_duplicate (lines 200-217): some popular artist
appears in both records' title+description texts and the title
similarity is at least 0.6. -/
def check_popular_artist_duplicate (n1 n2 : News) : Bool :=
  let text1 := pyLower (n1.title ++ ' ' :: n1.description)
  let text2 := pyLower (n2.title ++ ' ' :: n2.description)
  popular_artists.any fun artist =>
    containsSub artist text1 && containsSub artist text2 &&
      decide (calculate_title_similarity n1.title n2.title ≥ 6/10)

/-- Publication times both present and at most two hours (7200 s) apart
(lines 278-289; an unparsable or missing date never satisfies the rule). -/
def timeClose : Option Int → Option Int → Bool
  | some t1, some t2 => decide (|t1 - t2| ≤ 7200)
  | _, _ => false

/-- Duplicate rule 1 (lines 222-228): both normalized URLs nonempty
(Python truthiness) and equal. -/
def dupUrlClause (n1 n2 : News) : Bool :=
  decide (normalize_url n1.link ≠ [] ∧ normalize_url n2.link ≠ [] ∧
    normalize_url n1.link = normalize_url n2.link)

/-- Duplicate rule 5 (lines 253-268) as the source writes it: medium
title similarity, both core-keyword sets nonempty, positive union, and
combined score 0.6 · title + 0.4 · keyword Jaccard at least 0.75. -/
def dupClause5 (n1 n2 : News) : Bool :=
  let ts := calculate_title_similarity n1.title n2.title
  let k1 := extract_core_keywords n1.title n1.description
  let k2 := extract_core_keywords n2.title n2.description
  decide (ts ≥ 65/100 ∧ k1 ≠ [] ∧ k2 ≠ [] ∧
    0 < (k1.toFinset ∪ k2.toFinset).card ∧
    ts * (6/10) +
      (((k1.toFinset ∩ k2.toFinset).card : ℚ) /
        ((k1.toFinset ∪ k2.toFinset).card : ℚ)) * (4/10) ≥ 75/100)

/-- Duplicate rule 6 (lines 270-289): same source, title similarity at
least 0.5, publication times at most two hours apart. -/
def dupSourceTimeClause (n1 n2 : News) : Bool :=
  decide (n1.source = n2.source ∧
      calculate_title_similarity n1.title n2.title ≥ 1/2) &&
    timeClose n1.published_date n2.published_date

/-- is_duplicate_advanced (lines 219-291).  The source's early returns
are the short-circuit disjunction of its six rules in order. -/
def is_duplicate_advanced (n1 n2 : News) : Bool :=
  dupUrlClause n1 n2 ||
  check_popular_artist_duplicate n1 n2 ||
  decide (calculate_title_similarity n1.title n2.title ≥ 8/10) ||
  decide (generate_content_hash n1.title n1.description =
    generate_content_hash n2.title n2.description) ||
  dupClause5 n1 n2 ||
  dupSourceTimeClause n1 n2

/-- should_replace_news's source priority table (lines 358-367);
dict.get with default 1 is an exact lookup. -/
def source_priority : List (List Char × Int) :=
  [(strL "billboard.com", 10), (strL "rollingstone.com", 9),
   (strL "pitchfork.com", 8), (strL "variety.com", 7),
   (strL "musicbusinessworldwide.com", 6), (strL "consequence.net", 5),
   (strL "nme.com", 4), (strL "stereogum.com", 3)]

/-- Exact-key lookup with a default, dict.get. -/
def lookupDefault : List (List Char × Int) → List Char → Int → Int
  | [], _, d => d
  | (k, v) :: rest, key, d => if k = key then v else lookupDefault rest key d

/-- The priority tier of a record's source. -/
def tierOf (n : News) : Int := lookupDefault source_priority n.source 1

/-- should_replace_news's fallback weighted score (lines 400-402):
3 · tier + 0.1 · (title length + title space count) + 0.01 · description
length. -/
def replaceScore (n : News) : ℚ :=
  (tierOf n : ℚ) * 3 + ((n.title.length + countCh ' ' n.title : ℕ) : ℚ) * (1/10) +
    (n.description.length : ℚ) * (1/100)

/-- should_replace_news (lines 354-404): decisive source-tier gap of at
least 2; otherwise a decisive publication-time gap of more than one hour
(only when both dates parse); otherwise the higher weighted score wins,
ties keeping the existing record. -/
def should_replace_news (existing new_ : News) : Bool :=
  let existing_priority := tierOf existing
  let new_priority := tierOf new_
  if new_priority - existing_priority ≥ 2 then true
  else if existing_priority - new_priority ≥ 2 then false
  else
    let fallback : Bool := decide (replaceScore new_ > replaceScore existing)
    match existing.published_date, new_.published_date with
    | some et, some nt =>
      if nt - et > 3600 then true
      else if nt - et < -3600 then false
      else fallback
    | _, _ => fallback

/-- Order on date keys: a missing date (the empty string in the source)
sorts below every parsed date. -/
def dateLe : Option Int → Option Int → Bool
  | none, _ => true
  | some _, none => false
  | some a, some b => decide (a ≤ b)

/-- The first previously accepted record the new record duplicates
(the source's inner for-loop with its break). -/
def findDup (news : News) : List News → Option News
  | [] => none
  | e :: es => if is_duplicate_advanced news e then some e else findDup news es

/-- State of remove_duplicates_enhanced's loop: the URL cache, the
accepted records, and whether any accepted record has been replaced. -/
structure DedupState where
  cache : List (List Char)
  unique : List News
  replaced : Bool

/-- One iteration of remove_duplicates_enhanced's loop (lines 307-339):
drop a cached URL; otherwise cache the URL, then either replace the
first detected duplicate (when should_replace_news says so), drop the
new record, or append it. -/
def dedupStep (st : DedupState) (news : News) : DedupState :=
  let u := normalize_url news.link
  if u ∈ st.cache then st
  else
    let st1 : DedupState := { st with cache := u :: st.cache }
    match findDup news st1.unique with
    | some existing =>
      if should_replace_news existing news then
        { st1 with unique := st1.unique.erase existing ++ [news], replaced := true }
      else st1
    | none => { st1 with unique := st1.unique ++ [news] }

/-- The full run of remove_duplicates_enhanced's loop over the
date-sorted batch. -/
def dedupRun (l : List News) : DedupState :=
  (sortDescBy (fun a b => dateLe a.published_date b.published_date) l).foldl
    dedupStep ⟨[], [], false⟩

/-- remove_duplicates_enhanced (lines 293-352): sort by published date
descending (stable; the fixed date format makes string order agree with
time order) and fold the loop. -/
def remove_duplicates_enhanced (l : List News) : List News :=
  (dedupRun l).unique

/-- Whether a run of remove_duplicates_enhanced ever replaced an
accepted record by a better duplicate. -/
def dedupReplaced (l : List News) : Bool := (dedupRun l).replaced

/-!  src/advanced_classifier.py  -/

/-- AdvancedClassifier.known_artists (lines 68-112), in dict order:
lower-cased key and display name. -/
def known_artists : List (List Char × List Char) :=
  [(strL "taylor swift", strL "Taylor Swift"),
   (strL "ariana grande", strL "Ariana Grande"),
   (strL "billie eilish", strL "Billie Eilish"),
   (strL "dua lipa", strL "Dua Lipa"),
   (strL "olivia rodrigo", strL "Olivia Rodrigo"),
   (strL "drake", strL "Drake"),
   (strL "travis scott", strL "Travis Scott"),
   (strL "kid cudi", strL "Kid Cudi"),
   (strL "kendrick lamar", strL "Kendrick Lamar"),
   (strL "bts", strL "BTS"),
   (strL "blackpink", strL "BLACKPINK"),
   (strL "twice", strL "TWICE"),
   (strL "stray kids", strL "Stray Kids"),
   (strL "newjeans", strL "NewJeans"),
   (strL "ive", strL "IVE"),
   (strL "aespa", strL "aespa"),
   (strL "metallica", strL "Metallica"),
   (strL "my chemical romance", strL "My Chemical Romance"),
   (strL "mayday parade", strL "Mayday Parade"),
   (strL "mother love bone", strL "Mother Love Bone"),
   (strL "kaytranada", strL "Kaytranada"),
   (strL "ethel cain", strL "Ethel Cain"),
   (strL "wet leg", strL "Wet Leg"),
   (strL "chappell roan", strL "Chappell Roan"),
   (strL "doechii", strL "Doechii"),
   (strL "remble", strL "Remble"),
   (strL "naeem", strL "Naeem"),
   (strL "chance the rapper", strL "Chance the Rapper"),
   (strL "casey dienel", strL "Casey Dienel"),
   (strL "sombr", strL "Sombr"),
   (strL "bobby whitlock", strL "Bobby Whitlock"),
   (strL "charli xcx", strL "Charli XCX"),
   (strL "yung lean", strL "Yung Lean"),
   (strL "spank rock", strL "Spank Rock"),
   (strL "florence welch", strL "Florence Welch"),
   (strL "deftones", strL "Deftones"),
   (strL "dijon", strL "Dijon"),
   (strL "open mike eagle", strL "Open Mike Eagle"),
   (strL "snail mail", strL "Snail Mail"),
   (strL "wolf alice", strL "Wolf Alice"),
   (strL "travis kelce", strL "Travis Kelce"),
   (strL "ozzy osbourne", strL "Ozzy Osbourne"),
   (strL "robert trujillo", strL "Robert Trujillo")]

/-- extract_artists_from_text's exclusion list for pattern matches
(lines 195-200). -/
def artistExcludeWords : List (List Char) :=
  [strL "Music Video", strL "New Album", strL "Live From",
   strL "Very Imminent", strL "Is Ready", strL "New Heights",
   strL "Special Guest", strL "Album The", strL "Takes Over",
   strL "You Should", strL "Could This", strL "Did Dijon",
   strL "Open Mike", strL "Snail Mail", strL "Think Something"]

/-- extract_artists_from_text's generic-word substring filter
(line 204). -/
def artistBadSubs : List (List Char) :=
  [strL "new", strL "first", strL "live", strL "from", strL "very",
   strL "is", strL "the"]

/-- extract_artists_from_text (lines 170-207): known artists matched as
substrings of the lowered text, set-deduplicated, stably sorted by
length descending; when none match, the two capitalization patterns with
the exclusion filters; at most two results.  CPython leaves the
enumeration order of list(set(found_artists)) unspecified, so the
embedding takes that enumeration as the parameter `ordA`: any run of the
program corresponds to some `ordA` that returns the same elements
without duplicates. -/
def extract_artists_core (ordA : List (List Char) → List (List Char))
    (text : List Char) : List (List Char) :=
  let text_lower := pyLower text
  let found := (known_artists.filter
    (fun p => containsSub p.1 text_lower)).map Prod.snd
  let found := sortDescBy (fun a b => decide (a.length ≤ b.length))
    (ordA found)
  let found :=
    if found.isEmpty then
      (twoCapMatches text ++ allCapsMatches text).filter fun m =>
        decide (2 < m.length) && decide (m ∉ artistExcludeWords) &&
          !(artistBadSubs.any fun w => containsSub w (pyLower m))
    else found
  found.take 2

/-- The run of extract_artists_from_text in which the set enumerates in
first-occurrence order. -/
def extract_artists_from_text (text : List Char) : List (List Char) :=
  extract_artists_core dedupFirst text

/-- The tag dictionary extract_tags returns. -/
structure Tags where
  genre : List String
  industry : List String
  region : List String
deriving DecidableEq

/-- genre_keywords (lines 115-136), in dict order. -/
def genre_keywords : List (String × List (List Char)) :=
  [("K-POP",
    [strL "k-pop", strL "kpop", strL "korean pop", strL "bts",
     strL "blackpink", strL "twice", strL "stray kids", strL "newjeans",
     strL "ive", strL "aespa", strL "itzy", strL "seventeen", strL "txt",
     strL "le sserafim", strL "nmixx", strL "gidle", strL "red velvet",
     strL "enhypen", strL "nct", strL "riize", strL "케이팝",
     strL "한류", strL "hallyu"]),
   ("POP",
    [strL "taylor swift", strL "ariana grande", strL "dua lipa",
     strL "billie eilish", strL "olivia rodrigo", strL "sabrina carpenter",
     strL "chappell roan", strL "pop music", strL "mainstream pop",
     strL "charli xcx"]),
   ("HIP-HOP",
    [strL "drake", strL "kendrick lamar", strL "travis scott",
     strL "kid cudi", strL "cardi b", strL "migos", strL "doechii",
     strL "remble", strL "hip-hop", strL "rap", strL "rapper",
     strL "chance the rapper"]),
   ("ROCK",
    [strL "metallica", strL "my chemical romance", strL "mother love bone",
     strL "mayday parade", strL "rock", strL "metal", strL "punk",
     strL "alternative", strL "indie rock", strL "deftones", strL "wet leg"]),
   ("R&B",
    [strL "r&b", strL "rnb", strL "soul", strL "neo-soul",
     strL "the weeknd", strL "sza", strL "frank ocean"]),
   ("ELECTRONIC",
    [strL "kaytranada", strL "electronic", strL "edm", strL "house",
     strL "techno", strL "dubstep"])]

/-- industry_keywords (lines 139-146), in dict order. -/
def industry_keywords : List (String × List (List Char)) :=
  [("STREAMING",
    [strL "spotify", strL "apple music", strL "youtube music",
     strL "streaming", strL "playlist"]),
   ("LABEL",
    [strL "record label", strL "signs", strL "contract", strL "deal",
     strL "universal", strL "sony", strL "warner"]),
   ("TOUR",
    [strL "tour", strL "concert", strL "live", strL "venue",
     strL "tickets", strL "sold out"]),
   ("ALBUM",
    [strL "album", strL "ep", strL "single", strL "release",
     strL "track", strL "song"]),
   ("CHART",
    [strL "billboard", strL "hot 100", strL "chart", strL "number one",
     strL "top 10"]),
   ("AWARD",
    [strL "grammy", strL "award", strL "nomination", strL "wins",
     strL "ceremony"])]

/-- region_keywords (lines 149-155), in dict order. -/
def region_keywords : List (String × List (List Char)) :=
  [("KOREA",
    [strL "korea", strL "korean", strL "seoul", strL "k-pop",
     strL "kpop", strL "hallyu"]),
   ("US",
    [strL "america", strL "american", strL "usa", strL "united states",
     strL "billboard", strL "hollywood"]),
   ("UK",
    [strL "britain", strL "british", strL "uk", strL "united kingdom",
     strL "london"]),
   ("JAPAN",
    [strL "japan", strL "japanese", strL "tokyo", strL "jpop",
     strL "j-pop"]),
   ("GLOBAL",
    [strL "global", strL "worldwide", strL "international",
     strL "world tour"])]

/-- The direct artist-to-genre mapping inside extract_tags
(lines 219-232), applied to each extracted artist in order. -/
def genreOfArtist (artist_lower : List Char) : List String :=
  if artist_lower ∈ [strL "taylor swift", strL "ariana grande",
      strL "billie eilish", strL "dua lipa", strL "olivia rodrigo",
      strL "charli xcx"] then ["POP"]
  else if artist_lower ∈ [strL "drake", strL "travis scott",
      strL "kendrick lamar", strL "kid cudi", strL "chance the rapper",
      strL "remble", strL "doechii"] then ["HIP-HOP"]
  else if artist_lower ∈ [strL "bts", strL "blackpink", strL "twice",
      strL "stray kids", strL "newjeans", strL "ive", strL "aespa"] then
    ["K-POP"]
  else if artist_lower ∈ [strL "metallica", strL "my chemical romance",
      strL "mayday parade", strL "deftones", strL "wet leg"] then ["ROCK"]
  else if artist_lower ∈ [strL "kaytranada"] then ["ELECTRONIC"]
  else []

/-- The first genre whose keyword list matches the text (the fallback
loop of extract_tags breaks on its first match, lines 235-239). -/
def firstGenreMatch (text : List Char) : List (String × List (List Char)) → List String
  | [] => []
  | (g, kws) :: rest =>
    if kws.any (fun k => containsSub k text) then [g]
    else firstGenreMatch text rest

/-- The genre_tags list built by extract_tags's artist loop and keyword
fallback (lines 214-239), before the list(set(x))[:2] truncation. -/
def genreTagsOf (ordA : List (List Char) → List (List Char))
    (title description : List Char) : List String :=
  let text := pyLower (title ++ ' ' :: description)
  let artists := extract_artists_core ordA (title ++ ' ' :: description)
  let genre_tags := artists.foldl
    (fun acc artist => acc ++ genreOfArtist (pyLower artist)) []
  if genre_tags.isEmpty then firstGenreMatch text genre_keywords
  else genre_tags

/-- The industry_tags list (lines 242-245), before the truncation. -/
def industryTagsOf (title description : List Char) : List String :=
  let text := pyLower (title ++ ' ' :: description)
  (industry_keywords.filter
    (fun p => p.2.any (fun k => containsSub k text))).map Prod.fst

/-- The region_tags list (lines 248-257), before the truncation: KOREA
whenever K-POP is among the genre tags, then the other matched regions
in dict order. -/
def regionTagsOf (ordA : List (List Char) → List (List Char))
    (title description : List Char) : List String :=
  let text := pyLower (title ++ ' ' :: description)
  (if "K-POP" ∈ genreTagsOf ordA title description then ["KOREA"] else []) ++
    ((region_keywords.filter (fun p =>
        p.1 ≠ "KOREA" ∧ p.2.any (fun k => containsSub k text))).map Prod.fst)

/-- extract_tags (lines 209-263).  The url parameter is accepted but,
as in the source, never read.  The four list(set(x)) steps (one inside
extract_artists_from_text, one per returned tag list) enumerate their
sets in an order CPython leaves unspecified, so the embedding takes the
enumerations as parameters; a run of the program is any instance whose
enumerations return the same elements without duplicates. -/
def extract_tags_core (ordA : List (List Char) → List (List Char))
    (ordG ordI ordR : List String → List String)
    (title description url : List Char) : Tags :=
  let _ := url
  { genre := (ordG (genreTagsOf ordA title description)).take 2,
    industry := (ordI (industryTagsOf title description)).take 3,
    region := (ordR (regionTagsOf ordA title description)).take 2 }

/-- The run of extract_tags in which every set enumerates in
first-occurrence order. -/
def extract_tags (title description url : List Char) : Tags :=
  extract_tags_core dedupFirst dedupFirst dedupFirst dedupFirst
    title description url

/-- calculate_source_credibility's table (lines 778-782), in dict
order. -/
def source_weights : List (List Char × ℚ) :=
  [(strL "billboard.com", 95/100), (strL "variety.com", 90/100),
   (strL "rollingstone.com", 88/100), (strL "pitchfork.com", 85/100),
   (strL "musicbusinessworldwide.com", 85/100),
   (strL "consequence.net", 80/100), (strL "nme.com", 75/100),
   (strL "stereogum.com", 75/100)]

/-- First table entry whose domain is a substring of the source, else
the 0.5 default. -/
def credLookup : List (List Char × ℚ) → List Char → ℚ
  | [], _ => 1/2
  | (d, w) :: rest, s => if containsSub d s then w else credLookup rest s

/-- calculate_source_credibility (lines 776-788). -/
def calculate_source_credibility (source : List Char) : ℚ :=
  credLookup source_weights (pyLower source)

/-- calculate_artist_influence_dynamic's tiers (lines 790-811). -/
def mega_stars : List (List Char) :=
  [strL "taylor swift", strL "bts", strL "blackpink", strL "drake",
   strL "billie eilish"]

/-- The second tier of calculate_artist_influence_dynamic. -/
def major_artists : List (List Char) :=
  [strL "ariana grande", strL "dua lipa", strL "travis scott",
   strL "kendrick lamar", strL "metallica"]

/-- calculate_artist_influence_dynamic (lines 790-811). -/
def calculate_artist_influence_dynamic (text : List Char) : ℚ :=
  if mega_stars.any (fun a => containsSub a text) then 1
  else if major_artists.any (fun a => containsSub a text) then 9/10
  else if (known_artists.map Prod.fst).any (fun a => containsSub a text) then 7/10
  else if [strL "grammy", strL "billboard", strL "platinum",
      strL "chart"].any (fun p => containsSub p text) then 4/5
  else 1/2

/-- The high-impact keyword list of calculate_importance_score
(line 748). -/
def high_impact_keywords : List (List Char) :=
  [strL "breaking", strL "exclusive", strL "first", strL "debuts",
   strL "announces", strL "record-breaking"]

/-- The recency sub-score of calculate_importance_score (line 760): the
source assigns the constant 0.8 and never reads the record's
published_date. -/
def recency_score (_news : News) : ℚ := 8/10

/-- calculate_importance_score (lines 736-774): the weighted sum of the
six sub-scores, capped at 1. -/
def calculate_importance_score (news : News) : ℚ :=
  let title := pyLower news.title
  let description := pyLower news.description
  let text_combined := title ++ ' ' :: description
  let source_score := calculate_source_credibility news.source
  let keyword_score :=
    min (((high_impact_keywords.filter
      (fun kw => containsSub kw text_combined)).length : ℚ) * (1/10)) (8/10)
  let artist_influence := calculate_artist_influence_dynamic text_combined
  let industry_score : ℚ :=
    if [strL "album", strL "chart", strL "award",
        strL "tour"].any (fun kw => containsSub kw text_combined) then 7/10
    else 0
  let social_score : ℚ := 3/10
  min (source_score * (25/100) + keyword_score * (20/100) +
    artist_influence * (25/100) + industry_score * (15/100) +
    recency_score news * (10/100) + social_score * (5/100)) 1

/-- select_trending_news (lines 924-935).  The source mutates every
record of its input list, setting trending_score to the record's
importance_score (0 when absent), then returns the top records by
trending score (stable descending sort, then the max_total cap).  The
embedding returns the pair (input list after the call, returned
selection); the returned records are among the mutated ones. -/
def select_trending_news (news_list : List News) (max_total : Nat) :
    List News × List News :=
  let mutated := news_list.map fun n =>
    { n with trending_score := some (n.importance_score.getD 0) }
  let sorted := sortDescBy
    (fun a b => decide (a.trending_score.getD 0 ≤ b.trending_score.getD 0))
    mutated
  (mutated, sorted.take max_total)

/-!
Definitions written from the specification's words, for comparison with
the source-derived definitions above, and the concrete records the
counterexamples and witnesses evaluate.
-/

/-- Specification 4.4 rule 2, as the spec words it: both records mention
the same configured high-profile artist and title similarity is at least
0.6. -/
def specSameArtistClause (n1 n2 : News) : Bool :=
  decide (∃ a ∈ popular_artists,
    containsSub a (pyLower (n1.title ++ ' ' :: n1.description)) = true ∧
    containsSub a (pyLower (n2.title ++ ' ' :: n2.description)) = true ∧
    calculate_title_similarity n1.title n2.title ≥ 6/10)

/-- The core-keyword Jaccard similarity of two records (0 when either
keyword set is empty, since then the intersection is empty). -/
def specKwJaccard (n1 n2 : News) : ℚ :=
  jaccardQ (extract_core_keywords n1.title n1.description).toFinset
    (extract_core_keywords n2.title n2.description).toFinset

/-- Specification 4.4 rule 5, as the spec words it: title similarity at
least 0.65 and combined score 0.6 · title similarity + 0.4 · keyword
Jaccard at least 0.75. -/
def specClause5 (n1 n2 : News) : Bool :=
  decide (calculate_title_similarity n1.title n2.title ≥ 65/100 ∧
    (6/10) * calculate_title_similarity n1.title n2.title +
      (4/10) * specKwJaccard n1 n2 ≥ 75/100)

/-- Specification 4.4 rules 2-6 (shared by the claimed and the amended
reading, which differ only in rule 1). -/
def dupSpecCommon (n1 n2 : News) : Bool :=
  specSameArtistClause n1 n2 ||
  decide (calculate_title_similarity n1.title n2.title ≥ 8/10) ||
  decide (generate_content_hash n1.title n1.description =
    generate_content_hash n2.title n2.description) ||
  specClause5 n1 n2 ||
  (decide (n1.source = n2.source ∧
      calculate_title_similarity n1.title n2.title ≥ 1/2) &&
    timeClose n1.published_date n2.published_date)

/-- The claimed decision procedure: rule 1 is bare equality of the
normalized URLs. -/
def dupSpecClaim (n1 n2 : News) : Bool :=
  decide (normalize_url n1.link = normalize_url n2.link) ||
  dupSpecCommon n1 n2

/-- The amended decision procedure: rule 1 additionally requires both
normalized URLs to be nonempty. -/
def dupSpecAmended (n1 n2 : News) : Bool :=
  decide (normalize_url n1.link ≠ [] ∧ normalize_url n2.link ≠ [] ∧
    normalize_url n1.link = normalize_url n2.link) ||
  dupSpecCommon n1 n2

/-- First decisive test of a resolver cascade, else the fallback. -/
def firstSome : List (Option Bool) → Bool → Bool
  | [], d => d
  | some b :: _, _ => b
  | none :: rest, d => firstSome rest d

/-- Resolver test 1 (both readings): a source-tier gap of at least 2 is
decisive. -/
def tierRule (existing new_ : News) : Option Bool :=
  if tierOf new_ - tierOf existing ≥ 2 then some true
  else if tierOf existing - tierOf new_ ≥ 2 then some false
  else none

/-- Resolver recency test: a publication gap of more than one hour is
decisive (only when both records carry a parsed date). -/
def recencyRule (existing new_ : News) : Option Bool :=
  match existing.published_date, new_.published_date with
  | some et, some nt =>
    if nt - et > 3600 then some true
    else if nt - et < -3600 then some false
    else none
  | _, _ => none

/-- The claimed resolver's test 2: the longer description wins when it
exceeds the other by more than 20 %. -/
def descLenRule (existing new_ : News) : Option Bool :=
  if (new_.description.length : ℚ) > (existing.description.length : ℚ) * (12/10)
    then some true
  else if (existing.description.length : ℚ) > (new_.description.length : ℚ) * (12/10)
    then some false
  else none

/-- The claimed resolver's fallback score
3 · tier + 0.1 · titleLength + 0.01 · descriptionLength. -/
def claimScore (x : News) : ℚ :=
  3 * (tierOf x : ℚ) + (1/10) * (x.title.length : ℚ) +
    (1/100) * (x.description.length : ℚ)

/-- The resolver as the claim words it: tier, then the 20 % description
test, then recency, then the weighted fallback. -/
def claimResolverKeepsNew (existing new_ : News) : Bool :=
  firstSome [tierRule existing new_, descLenRule existing new_,
    recencyRule existing new_]
    (decide (claimScore existing < claimScore new_))

/-- The resolver as amended: tier, then recency, then the source's
weighted fallback (whose title term counts length plus spaces). -/
def amendedResolver (existing new_ : News) : Bool :=
  firstSome [tierRule existing new_, recencyRule existing new_]
    (decide (replaceScore new_ > replaceScore existing))

/-- Pure Jaccard title similarity, as claim C5 states it. -/
def jaccardTitleSimilarity (a b : List Char) : ℚ :=
  if tokSet a = ∅ ∨ tokSet b = ∅ then 0 else jaccardQ (tokSet a) (tokSet b)

/-- The blend the source actually computes, written from the amended
claim: 0.7 · token Jaccard + 0.3 · keyword Jaccard, 0 on an empty token
set, the keyword part 0 on an empty keyword set. -/
def blendTitleSimilarity (a b : List Char) : ℚ :=
  if tokSet a = ∅ ∨ tokSet b = ∅ then 0
  else (7/10) * jaccardQ (tokSet a) (tokSet b) +
    (3/10) * (if kwSet a = ∅ ∨ kwSet b = ∅ then 0
      else jaccardQ (kwSet a) (kwSet b))

/-- Batch record A for the C1 counterexample. -/
def cxA : News :=
  { title := strL "alpha beta gamma delta omega", description := [],
    link := strL "http://s.com/x", source := strL "s",
    published_date := some 0 }

/-- Batch record B for the C1 counterexample: not a duplicate of A
(title similarity 7/15 < 0.5). -/
def cxB : News :=
  { title := strL "alpha beta gamma delta sigma", description := [],
    link := strL "http://s.com/y", source := strL "s",
    published_date := some 0 }

/-- Batch record C for the C1 counterexample: a duplicate of both A and
B (title similarity 7/12 ≥ 0.5, same source, same time), with the
better weighted score, so it replaces A and is never compared with B. -/
def cxC : News :=
  { title := strL "alpha beta gamma delta omega sigma", description := [],
    link := strL "http://s.com/z", source := strL "s",
    published_date := some 0 }

/-- Witness record for the no-replacement run. -/
def wA : News :=
  { title := strL "alpha beta", description := [],
    link := strL "http://s.com/a", source := strL "s1",
    published_date := some 0 }

/-- Witness record for the no-replacement run, unrelated to wA. -/
def wB : News :=
  { title := strL "gamma delta", description := [],
    link := strL "http://t.com/b", source := strL "s2",
    published_date := some 0 }

/-- Record with an empty URL for the C2 counterexample. -/
def cxE1 : News :=
  { title := strL "alpha", description := [], link := [],
    source := strL "s1", published_date := none }

/-- Second record with an empty URL, otherwise unrelated to cxE1. -/
def cxE2 : News :=
  { title := strL "gamma delta", description := [], link := [],
    source := strL "s2", published_date := none }

/-- Existing record for the C3 counterexample: ten-character
description, published at time 0. -/
def cxRex : News :=
  { title := strL "t", description := strL "aaaaaaaaaa", link := [],
    source := strL "s", published_date := some 0 }

/-- New record for the C3 counterexample: two-character description
(more than 20 % shorter), published two hours later. -/
def cxRnew : News :=
  { title := strL "t", description := strL "bb", link := [],
    source := strL "s", published_date := some 7200 }

/-- Record with no published date, for C7. -/
def noDateRec : News :=
  { title := strL "t", description := [], link := [], source := [],
    published_date := none }

/-- Raw record from billboard.com for the C8 counterexample. -/
def trA : News :=
  { title := strL "alpha beta", description := [], link := [],
    source := strL "billboard.com", published_date := none }

/-- trA after scoring: its importance score is 183/400. -/
def trA1 : News := { trA with importance_score := some (calculate_importance_score trA) }

/-- Raw record from nme.com, identical to trA except for the source. -/
def trB : News :=
  { title := strL "alpha beta", description := [], link := [],
    source := strL "nme.com", published_date := none }

/-- trB after scoring: its importance score is 163/400. -/
def trB1 : News := { trB with importance_score := some (calculate_importance_score trB) }

/-- The first record select_trending_news returns on [trA1, trB1]. -/
def trA2 : News := { trA1 with trending_score := some (183/400) }

/-- Record whose stored trending score differs from its importance
score, for the C10 counterexample. -/
def mutRec : News :=
  { title := strL "t", description := [], link := [], source := [],
    published_date := none, importance_score := some (3/10),
    trending_score := some (9/10) }

/-- No two adjacent whitespace characters (the relation normalize_title
output satisfies between neighbours). -/
def NBW (a b : Char) : Prop := ¬(isWsCh a = true ∧ isWsCh b = true)

/-- Boolean form of the no-adjacent-whitespace invariant. -/
def noDoubleWs : List Char → Bool
  | [] => true
  | [_] => true
  | a :: b :: l => !(isWsCh a && isWsCh b) && noDoubleWs (b :: l)

/-!  Helper lemmas.  -/

theorem jaccardQ_nonneg (A B : Finset (List Char)) : 0 ≤ jaccardQ A B := by
  unfold jaccardQ
  split_ifs with h
  · positivity
  · norm_num

theorem jaccardQ_le_one (A B : Finset (List Char)) : jaccardQ A B ≤ 1 := by
  unfold jaccardQ
  split_ifs with h
  · rw [div_le_one (by exact_mod_cast h)]
    exact_mod_cast Finset.card_le_card
      (Finset.inter_subset_left.trans Finset.subset_union_left)
  · norm_num

theorem jaccardQ_comm (A B : Finset (List Char)) : jaccardQ A B = jaccardQ B A := by
  unfold jaccardQ
  rw [Finset.union_comm B A, Finset.inter_comm B A]

theorem sim_nonneg (a b : List Char) : 0 ≤ calculate_title_similarity a b := by
  unfold calculate_title_similarity
  dsimp only
  split_ifs with h1 h2
  · norm_num
  · have j1 := jaccardQ_nonneg (tokSet a) (tokSet b)
    have j2 := jaccardQ_nonneg (kwSet a) (kwSet b)
    linarith
  · have j1 := jaccardQ_nonneg (tokSet a) (tokSet b)
    linarith

theorem sim_le_one (a b : List Char) : calculate_title_similarity a b ≤ 1 := by
  unfold calculate_title_similarity
  dsimp only
  split_ifs with h1 h2
  · norm_num
  · have j1 := jaccardQ_le_one (tokSet a) (tokSet b)
    have j2 := jaccardQ_le_one (kwSet a) (kwSet b)
    have j3 := jaccardQ_nonneg (tokSet a) (tokSet b)
    have j4 := jaccardQ_nonneg (kwSet a) (kwSet b)
    linarith
  · have j1 := jaccardQ_le_one (tokSet a) (tokSet b)
    linarith

theorem sim_eq (a b : List Char) :
    calculate_title_similarity a b =
      if tokSet a = ∅ ∨ tokSet b = ∅ then 0
      else jaccardQ (tokSet a) (tokSet b) * (7/10) +
        (if kwSet a ≠ ∅ ∧ kwSet b ≠ ∅ then jaccardQ (kwSet a) (kwSet b)
         else 0) * (3/10) := rfl

theorem simCore_comm (A B K1 K2 : Finset (List Char)) :
    (if A = ∅ ∨ B = ∅ then (0 : ℚ)
     else jaccardQ A B * (7/10) +
       (if K1 ≠ ∅ ∧ K2 ≠ ∅ then jaccardQ K1 K2 else 0) * (3/10)) =
    (if B = ∅ ∨ A = ∅ then (0 : ℚ)
     else jaccardQ B A * (7/10) +
       (if K2 ≠ ∅ ∧ K1 ≠ ∅ then jaccardQ K2 K1 else 0) * (3/10)) := by
  by_cases h1 : A = ∅
  · rw [if_pos (show A = ∅ ∨ B = ∅ from Or.inl h1),
      if_pos (show B = ∅ ∨ A = ∅ from Or.inr h1)]
  · by_cases h2 : B = ∅
    · rw [if_pos (show A = ∅ ∨ B = ∅ from Or.inr h2),
        if_pos (show B = ∅ ∨ A = ∅ from Or.inl h2)]
    · rw [if_neg (show ¬(A = ∅ ∨ B = ∅) by tauto),
        if_neg (show ¬(B = ∅ ∨ A = ∅) by tauto),
        jaccardQ_comm A B, jaccardQ_comm K1 K2]
      by_cases k1 : K1 = ∅
      · rw [if_neg (show ¬(K1 ≠ ∅ ∧ K2 ≠ ∅) by tauto),
          if_neg (show ¬(K2 ≠ ∅ ∧ K1 ≠ ∅) by tauto)]
      · by_cases k2 : K2 = ∅
        · rw [if_neg (show ¬(K1 ≠ ∅ ∧ K2 ≠ ∅) by tauto),
            if_neg (show ¬(K2 ≠ ∅ ∧ K1 ≠ ∅) by tauto)]
        · rw [if_pos (show K1 ≠ ∅ ∧ K2 ≠ ∅ from ⟨k1, k2⟩),
            if_pos (show K2 ≠ ∅ ∧ K1 ≠ ∅ from ⟨k2, k1⟩)]

theorem sim_comm (a b : List Char) :
    calculate_title_similarity a b = calculate_title_similarity b a := by
  rw [sim_eq a b, sim_eq b a]
  exact simCore_comm (tokSet a) (tokSet b) (kwSet a) (kwSet b)

/-- C5 counterexample: on the titles "alpha beta" and "alpha gamma" the
source's similarity is 0.7 · (1/3) = 7/30, not the Jaccard value 1/3
the claim states. -/
theorem title_similarity_not_jaccard_cex :
    calculate_title_similarity (strL "alpha beta") (strL "alpha gamma") = 7/30 ∧
    jaccardTitleSimilarity (strL "alpha beta") (strL "alpha gamma") = 1/3 ∧
    calculate_title_similarity (strL "alpha beta") (strL "alpha gamma") ≠
      jaccardTitleSimilarity (strL "alpha beta") (strL "alpha gamma") := by
  refine ⟨by with_unfolding_all decide, by with_unfolding_all decide,
    by with_unfolding_all decide⟩

/-- C5 amended: calculate_title_similarity is the 0.7/0.3 blend of the
token-set Jaccard and the core-keyword Jaccard (0 when either token set
is empty; keyword part 0 when either keyword set is empty). -/
theorem simCore_blend (A B K1 K2 : Finset (List Char)) :
    (if A = ∅ ∨ B = ∅ then (0 : ℚ)
     else jaccardQ A B * (7/10) +
       (if K1 ≠ ∅ ∧ K2 ≠ ∅ then jaccardQ K1 K2 else 0) * (3/10)) =
    (if A = ∅ ∨ B = ∅ then (0 : ℚ)
     else (7/10) * jaccardQ A B +
       (3/10) * (if K1 = ∅ ∨ K2 = ∅ then 0 else jaccardQ K1 K2)) := by
  by_cases h1 : A = ∅ ∨ B = ∅
  · rw [if_pos h1, if_pos h1]
  · rw [if_neg h1, if_neg h1]
    by_cases k : K1 = ∅ ∨ K2 = ∅
    · rw [if_neg (show ¬(K1 ≠ ∅ ∧ K2 ≠ ∅) by tauto), if_pos k]
      ring
    · rw [if_pos (show K1 ≠ ∅ ∧ K2 ≠ ∅ by tauto), if_neg k]
      ring

/-- C5 amended: calculate_title_similarity is the 0.7/0.3 blend of the
token-set Jaccard and the core-keyword Jaccard (0 when either token set
is empty; keyword part 0 when either keyword set is empty). -/
theorem title_similarity_eq_blend (a b : List Char) :
    calculate_title_similarity a b = blendTitleSimilarity a b := by
  rw [sim_eq]
  unfold blendTitleSimilarity
  exact simCore_blend (tokSet a) (tokSet b) (kwSet a) (kwSet b)

/-- C7 counterexample: a record with a missing published date gets
recency sub-score 0.8, not the neutral 0.5 the claim states. -/
theorem recency_not_neutral_cex :
    noDateRec.published_date = none ∧ recency_score noDateRec = 4/5 ∧
    recency_score noDateRec ≠ 1/2 :=
  ⟨rfl, by norm_num [recency_score], by norm_num [recency_score]⟩

/-- C7 amended: the recency sub-score of calculate_importance_score is
the constant 0.8 for every record — the published_date field is never
consulted — and scoring is total. -/
theorem recency_score_constant (news : News) (d : Option Int) :
    recency_score { news with published_date := d } = recency_score news ∧
    recency_score news = 4/5 :=
  ⟨rfl, by norm_num [recency_score]⟩

/-- C10 counterexample: select_trending_news overwrites the
trending_score field of a record in its input list whose stored value
differs from its importance score. -/
theorem select_trending_mutates_cex :
    (select_trending_news [mutRec] 20).1 ≠ [mutRec] := by
  with_unfolding_all decide

/-- C10 amended: select_trending_news rewrites exactly the
trending_score field of every input record (set to the record's
importance score, 0 when absent); every other field is unchanged. -/
theorem select_trending_touches_only_trending (l : List News) (n : Nat) :
    ((select_trending_news l n).1).map News.title = l.map News.title ∧
    ((select_trending_news l n).1).map News.description = l.map News.description ∧
    ((select_trending_news l n).1).map News.link = l.map News.link ∧
    ((select_trending_news l n).1).map News.source = l.map News.source ∧
    ((select_trending_news l n).1).map News.published_date =
      l.map News.published_date ∧
    ((select_trending_news l n).1).map News.importance_score =
      l.map News.importance_score ∧
    ((select_trending_news l n).1).map News.trending_score =
      l.map (fun x => some (x.importance_score.getD 0)) := by
  unfold select_trending_news
  dsimp only
  refine ⟨?_, ?_, ?_, ?_, ?_, ?_, ?_⟩ <;>
    (rw [List.map_map]; exact List.map_congr_left fun x _ => rfl)

theorem mem_of_mem_dedupFirstAux {α : Type} [DecidableEq α] {a : α} :
    ∀ (seen l : List α), a ∈ dedupFirstAux seen l → a ∈ l := by
  intro seen l
  induction l generalizing seen with
  | nil => intro h; simp [dedupFirstAux] at h
  | cons x xs ih =>
    intro h
    unfold dedupFirstAux at h
    split_ifs at h with hx
    · exact List.mem_cons_of_mem x (ih seen h)
    · rcases List.mem_cons.mp h with h1 | h2
      · exact h1 ▸ List.mem_cons_self x xs
      · exact List.mem_cons_of_mem x (ih (x :: seen) h2)

theorem mem_dedupFirstAux_of_mem {α : Type} [DecidableEq α] {a : α} :
    ∀ (seen l : List α), a ∈ l → a ∉ seen → a ∈ dedupFirstAux seen l := by
  intro seen l
  induction l generalizing seen with
  | nil => intro h _; cases h
  | cons x xs ih =>
    intro hx hs
    unfold dedupFirstAux
    split_ifs with hmem
    · rcases List.mem_cons.mp hx with h1 | h2
      · exact absurd (h1 ▸ hmem) hs
      · exact ih seen h2 hs
    · rcases List.mem_cons.mp hx with h1 | h2
      · exact h1 ▸ List.mem_cons_self x _
      · by_cases hax : a = x
        · exact hax ▸ List.mem_cons_self x _
        · refine List.mem_cons_of_mem x (ih (x :: seen) h2 ?_)
          intro hmm
          rcases List.mem_cons.mp hmm with h3 | h4
          · exact hax h3
          · exact hs h4

theorem mem_dedupFirst_iff {α : Type} [DecidableEq α] (l : List α) (a : α) :
    a ∈ dedupFirst l ↔ a ∈ l :=
  ⟨mem_of_mem_dedupFirstAux [] l,
    fun h => mem_dedupFirstAux_of_mem [] l h (List.not_mem_nil a)⟩

/-- C6 counterexample: on the title "bts" the genre tags are nonempty
(K-POP) yet the returned region tags are nonempty too (KOREA), against
the claim that region stays empty whenever genre or industry yields a
tag.  Every set built in this run is empty or a singleton, so the
output is the same under every set-enumeration order. -/
theorem extract_tags_region_not_skipped_cex :
    (extract_tags (strL "bts") [] []).genre = ["K-POP"] ∧
    (extract_tags (strL "bts") [] []).industry = [] ∧
    (extract_tags (strL "bts") [] []).region = ["KOREA"] ∧
    (extract_tags (strL "bts") [] []).region ≠ [] := by
  refine ⟨by decide, by decide, by decide, by decide⟩

/-- C6 amended: region tags are computed regardless of the genre and
industry results.  The statement quantifies over every enumeration of
the unspecified set orders (any functions preserving membership): in
every run whose returned genre tags contain K-POP, KOREA is appended to
the region candidate list and the returned region list is nonempty.
(Whether KOREA itself survives the list(set(x))[:2] cap depends on the
unspecified enumeration order once three or more regions match, so only
nonemptiness is claimed of the capped output.) -/
theorem extract_tags_region_unconditional
    (ordA : List (List Char) → List (List Char))
    (ordG ordI ordR : List String → List String)
    (hG : ∀ (l : List String) (x : String), x ∈ ordG l ↔ x ∈ l)
    (hR : ∀ (l : List String) (x : String), x ∈ ordR l ↔ x ∈ l)
    (title description url : List Char)
    (h : "K-POP" ∈
      (extract_tags_core ordA ordG ordI ordR title description url).genre) :
    "KOREA" ∈ regionTagsOf ordA title description ∧
    (extract_tags_core ordA ordG ordI ordR title description url).region
      ≠ [] := by
  have hg : "K-POP" ∈ genreTagsOf ordA title description :=
    (hG _ _).mp (List.mem_of_mem_take h)
  have hkor : "KOREA" ∈ regionTagsOf ordA title description := by
    unfold regionTagsOf
    dsimp only
    rw [if_pos hg]
    exact List.mem_cons_self _ _
  refine ⟨hkor, ?_⟩
  show (ordR (regionTagsOf ordA title description)).take 2 ≠ []
  intro htake
  have hmem : "KOREA" ∈ ordR (regionTagsOf ordA title description) :=
    (hR _ _).mpr hkor
  rcases List.take_eq_nil_iff.mp htake with h2 | h2
  · cases h2
  · rw [h2] at hmem
    cases hmem

/-- Witness for the amended region behavior at the title "bts", with
every set enumerated in first-occurrence order. -/
theorem extract_tags_region_unconditional_witness :
    "KOREA" ∈ regionTagsOf dedupFirst (strL "bts") [] ∧
    (extract_tags (strL "bts") [] []).region ≠ [] :=
  extract_tags_region_unconditional dedupFirst dedupFirst dedupFirst
    dedupFirst (fun l x => mem_dedupFirst_iff l x)
    (fun l x => mem_dedupFirst_iff l x) (strL "bts") [] [] (by decide)

/-- C3 counterexample: the existing record's description is more than
20 % longer (10 characters against 2), so the claimed resolver keeps the
existing record; the source's resolver never performs that test and
replaces it because the new record is two hours more recent. -/
theorem resolver_description_rule_cex :
    should_replace_news cxRex cxRnew = true ∧
    claimResolverKeepsNew cxRex cxRnew = false := by
  refine ⟨by with_unfolding_all decide, by with_unfolding_all decide⟩

/-- C2 counterexample: two records with empty links have equal (empty)
normalized URLs, so the claimed rule 1 fires, yet the source's guard
against empty URLs makes the verdict negative. -/
theorem dup_verdict_empty_url_cex :
    normalize_url cxE1.link = normalize_url cxE2.link ∧
    dupSpecClaim cxE1 cxE2 = true ∧
    is_duplicate_advanced cxE1 cxE2 = false := by
  refine ⟨by decide, by with_unfolding_all decide,
    by with_unfolding_all decide⟩

theorem mem_insDescBy {α : Type} (le : α → α → Bool) (x : α) (l : List α)
    (y : α) (h : y ∈ insDescBy le x l) : y = x ∨ y ∈ l := by
  induction l with
  | nil =>
    simp [insDescBy] at h
    exact Or.inl h
  | cons z zs ih =>
    unfold insDescBy at h
    split_ifs at h with hle
    · simpa using h
    · rcases List.mem_cons.mp h with h1 | h2
      · exact Or.inr (h1 ▸ List.mem_cons_self z zs)
      · rcases ih h2 with h3 | h4
        · exact Or.inl h3
        · exact Or.inr (List.mem_cons_of_mem z h4)

theorem mem_sortDescBy {α : Type} (le : α → α → Bool) (l : List α)
    (y : α) (h : y ∈ sortDescBy le l) : y ∈ l := by
  induction l with
  | nil =>
    simp [sortDescBy] at h
  | cons z zs ih =>
    rcases mem_insDescBy le z (sortDescBy le zs) y h with h1 | h2
    · exact h1 ▸ List.mem_cons_self z zs
    · exact List.mem_cons_of_mem z (ih h2)

/-- C8 amended: the trending score select_trending_news assigns to every
selected record is exactly that record's importance score (0 when the
record carries none); no re-weighting of any kind takes place. -/
theorem trending_eq_importance (l : List News) (n : Nat) (y : News)
    (hy : y ∈ (select_trending_news l n).2) :
    y.trending_score = some (y.importance_score.getD 0) := by
  unfold select_trending_news at hy
  dsimp only at hy
  have h2 := mem_sortDescBy _ _ _ (List.mem_of_mem_take hy)
  obtain ⟨x, hx, rfl⟩ := List.mem_map.mp h2
  rfl

/-- Witness for trending_eq_importance on a concrete scored record. -/
theorem trending_eq_importance_witness :
    trA2.trending_score = some (trA2.importance_score.getD 0) :=
  trending_eq_importance [trA1] 5 trA2 (by with_unfolding_all decide)

/-- C8 counterexample: the two records share every attribute the claimed
bonuses could read (same title, description, publication date; no buzz
keywords) and differ only in source, so the claimed formula forces one
common bonus value X with trending = min(0.7 · importance + X, 1) for
both; their trending scores (copies of their importance scores 183/400
and 163/400) admit no such X. -/
theorem trending_formula_cex :
    (select_trending_news [trA1, trB1] 20).2.map News.importance_score =
      [some (183/400), some (163/400)] ∧
    (select_trending_news [trA1, trB1] 20).2.map News.trending_score =
      [some (183/400), some (163/400)] ∧
    ((∃ X : ℚ, 0 ≤ X ∧ X ≤ 3/10 ∧
        min ((7/10) * (183/400) + X) 1 = 183/400 ∧
        min ((7/10) * (163/400) + X) 1 = 163/400) = False) := by
  refine ⟨by with_unfolding_all decide, by with_unfolding_all decide, ?_⟩
  apply eq_false
  rintro ⟨X, h0, h3, e1, e2⟩
  rw [min_eq_left (by linarith : (7:ℚ)/10 * (183/400) + X ≤ 1)] at e1
  rw [min_eq_left (by linarith : (7:ℚ)/10 * (163/400) + X ≤ 1)] at e2
  linarith

theorem cred_bounds (s : List Char) :
    1/2 ≤ calculate_source_credibility s ∧
      calculate_source_credibility s ≤ 19/20 := by
  unfold calculate_source_credibility source_weights
  simp only [credLookup]
  split_ifs <;> constructor <;> norm_num

theorem influence_bounds (t : List Char) :
    1/2 ≤ calculate_artist_influence_dynamic t ∧
      calculate_artist_influence_dynamic t ≤ 1 := by
  unfold calculate_artist_influence_dynamic
  split_ifs <;> constructor <;> norm_num

theorem importance_bounds (news : News) :
    0 ≤ calculate_importance_score news ∧
      calculate_importance_score news ≤ 1 := by
  unfold calculate_importance_score
  dsimp only
  constructor
  · have hc := cred_bounds news.source
    have ha := influence_bounds
      (pyLower news.title ++ ' ' :: pyLower news.description)
    have hk0 : (0:ℚ) ≤
        min (((high_impact_keywords.filter (fun kw =>
          containsSub kw (pyLower news.title ++ ' ' :: pyLower news.description))).length : ℚ) *
          (1/10)) (8/10) :=
      le_min (by positivity) (by norm_num)
    have hi : (0:ℚ) ≤
        (if [strL "album", strL "chart", strL "award", strL "tour"].any
          (fun kw => containsSub kw
            (pyLower news.title ++ ' ' :: pyLower news.description)) then (7:ℚ)/10
         else 0) := by
      split_ifs <;> norm_num
    refine le_min ?_ (by norm_num)
    have hrec : recency_score news = 8/10 := rfl
    rw [hrec]
    linarith [hc.1, ha.1]
  · exact min_le_right _ _

/-- C9: calculate_importance_score is bounded in [0, 1] for every record
(empty strings and unknown sources included), and the trending score of
every record select_trending_news returns stays in [0, 1] whenever the
stored importance scores of the input records are (as the pipeline
guarantees by the first part). -/
theorem importance_trending_bounded :
    (∀ news : News, 0 ≤ calculate_importance_score news ∧
      calculate_importance_score news ≤ 1) ∧
    (∀ (l : List News) (n : Nat),
      (∀ x ∈ l, ∀ q ∈ x.importance_score, 0 ≤ q ∧ q ≤ 1) →
      ∀ y ∈ (select_trending_news l n).2, ∀ t ∈ y.trending_score,
        0 ≤ t ∧ t ≤ 1) := by
  constructor
  · exact importance_bounds
  · intro l n hl y hy t ht
    unfold select_trending_news at hy
    dsimp only at hy
    have h2 := mem_sortDescBy _ _ _ (List.mem_of_mem_take hy)
    obtain ⟨x, hx, rfl⟩ := List.mem_map.mp h2
    simp only [Option.mem_def, Option.some.injEq] at ht
    rcases hxi : x.importance_score with _ | q
    · rw [hxi] at ht
      simp only [Option.getD_none] at ht
      subst ht
      norm_num
    · rw [hxi] at ht
      simp only [Option.getD_some] at ht
      subst ht
      exact hl x hx q (by rw [hxi]; rfl)

theorem pop_clause_eq (n1 n2 : News) :
    check_popular_artist_duplicate n1 n2 = specSameArtistClause n1 n2 := by
  unfold check_popular_artist_duplicate specSameArtistClause
  dsimp only
  apply Bool.eq_iff_iff.mpr
  simp only [List.any_eq_true, Bool.and_eq_true, decide_eq_true_eq, and_assoc]

theorem clause5_eq (n1 n2 : News) :
    dupClause5 n1 n2 = specClause5 n1 n2 := by
  unfold dupClause5 specClause5 specKwJaccard
  dsimp only
  apply decide_eq_decide.mpr
  constructor
  · rintro ⟨hts, h1, h2, hu, hcomb⟩
    refine ⟨hts, ?_⟩
    rw [jaccardQ, if_pos hu]
    linarith
  · rintro ⟨hts, hcomb⟩
    by_cases h1 : extract_core_keywords n1.title n1.description = []
    · exfalso
      rw [jaccardQ] at hcomb
      rw [h1] at hcomb
      simp only [List.toFinset_nil, Finset.empty_inter, Finset.card_empty,
        Nat.cast_zero, zero_div] at hcomb
      have hle := sim_le_one n1.title n2.title
      split_ifs at hcomb <;> linarith
    · by_cases h2 : extract_core_keywords n2.title n2.description = []
      · exfalso
        rw [jaccardQ] at hcomb
        rw [h2] at hcomb
        simp only [List.toFinset_nil, Finset.inter_empty, Finset.card_empty,
          Nat.cast_zero, zero_div] at hcomb
        have hle := sim_le_one n1.title n2.title
        split_ifs at hcomb <;> linarith
      · have hn1 : (extract_core_keywords n1.title n1.description).toFinset.Nonempty := by
          rw [List.toFinset_nonempty_iff]
          exact h1
        have hu : 0 < ((extract_core_keywords n1.title n1.description).toFinset ∪
            (extract_core_keywords n2.title n2.description).toFinset).card :=
          Finset.card_pos.mpr (hn1.mono Finset.subset_union_left)
        refine ⟨hts, h1, h2, hu, ?_⟩
        rw [jaccardQ, if_pos hu] at hcomb
        linarith

/-- C2 amended: the duplicate verdict is exactly the claimed six-rule
short-circuit disjunction once rule 1 additionally requires both
normalized URLs to be nonempty (and with rule 5's keyword Jaccard read
as 0 on an empty keyword set, which the source's extra nonemptiness
guards make equivalent since a combined score of at most 0.6 can never
reach 0.75). -/
theorem dup_verdict_eq_spec_amended (n1 n2 : News) :
    is_duplicate_advanced n1 n2 = dupSpecAmended n1 n2 := by
  unfold is_duplicate_advanced dupSpecAmended dupSpecCommon dupUrlClause
    dupSourceTimeClause
  rw [pop_clause_eq, clause5_eq]
  simp only [Bool.or_assoc]

theorem timePart_eq (et nt : Int) (d : Bool) :
    (if nt - et > 3600 then true
     else if nt - et < -3600 then false else d) =
    firstSome [if nt - et > 3600 then some true
      else if nt - et < -3600 then some false else none] d := by
  split_ifs <;> simp [firstSome]

/-- C3 amended: should_replace_news is the cascade tier gap (≥ 2
decisive), then recency (a gap over one hour decisive, when both dates
parse), then the weighted fallback 3 · tier + 0.1 · (title length +
space count) + 0.01 · description length, the new record winning only
strictly; no description-length test exists. -/
theorem resolver_eq_spec_amended (existing new_ : News) :
    should_replace_news existing new_ = amendedResolver existing new_ := by
  unfold should_replace_news amendedResolver tierRule recencyRule
  dsimp only
  by_cases h1 : tierOf new_ - tierOf existing ≥ 2
  · rw [if_pos h1, if_pos h1]
    rfl
  · rw [if_neg h1, if_neg h1]
    by_cases h2 : tierOf existing - tierOf new_ ≥ 2
    · rw [if_pos h2, if_pos h2]
      rfl
    · rw [if_neg h2, if_neg h2]
      cases existing.published_date <;> cases new_.published_date <;>
        first
          | rfl
          | exact timePart_eq _ _ _

theorem timeClose_symm (o1 o2 : Option Int) :
    timeClose o1 o2 = timeClose o2 o1 := by
  cases o1 <;> cases o2 <;> simp [timeClose, abs_sub_comm]

theorem dupUrl_symm (a b : News) : dupUrlClause a b = dupUrlClause b a := by
  unfold dupUrlClause
  apply decide_eq_decide.mpr
  constructor <;> rintro ⟨x, y, z⟩ <;> exact ⟨y, x, z.symm⟩

theorem pop_symm (a b : News) :
    check_popular_artist_duplicate a b = check_popular_artist_duplicate b a := by
  rw [pop_clause_eq, pop_clause_eq]
  unfold specSameArtistClause
  apply decide_eq_decide.mpr
  constructor <;> rintro ⟨x, hx, h1, h2, h3⟩ <;>
    exact ⟨x, hx, h2, h1, by rwa [sim_comm]⟩

theorem clause5_symm (a b : News) : dupClause5 a b = dupClause5 b a := by
  rw [clause5_eq, clause5_eq]
  unfold specClause5 specKwJaccard
  apply decide_eq_decide.mpr
  rw [sim_comm b.title a.title,
    jaccardQ_comm (extract_core_keywords b.title b.description).toFinset
      (extract_core_keywords a.title a.description).toFinset]

theorem sourceTime_symm (a b : News) :
    dupSourceTimeClause a b = dupSourceTimeClause b a := by
  unfold dupSourceTimeClause
  rw [timeClose_symm, sim_comm b.title a.title]
  congr 1
  apply decide_eq_decide.mpr
  constructor <;> rintro ⟨x, y⟩ <;> exact ⟨x.symm, y⟩

theorem dup_symm (a b : News) :
    is_duplicate_advanced a b = is_duplicate_advanced b a := by
  unfold is_duplicate_advanced
  rw [dupUrl_symm, pop_symm, clause5_symm, sourceTime_symm,
    sim_comm a.title b.title,
    show (decide (generate_content_hash a.title a.description =
        generate_content_hash b.title b.description)) =
      (decide (generate_content_hash b.title b.description =
        generate_content_hash a.title a.description)) from
      decide_eq_decide.mpr eq_comm]

theorem findDup_none (news : News) (l : List News) (h : findDup news l = none) :
    ∀ e ∈ l, is_duplicate_advanced news e = false := by
  induction l with
  | nil => intro e he; cases he
  | cons x xs ih =>
    rw [findDup] at h
    by_cases hd : is_duplicate_advanced news x = true
    · rw [if_pos hd] at h
      cases h
    · rw [if_neg hd] at h
      intro e he
      rcases List.mem_cons.mp he with rfl | hmem
      · simpa using hd
      · exact ih h e hmem

theorem dedupStep_replaced_mono (st : DedupState) (n : News)
    (h : st.replaced = true) : (dedupStep st n).replaced = true := by
  unfold dedupStep
  dsimp only
  split_ifs with h1
  · exact h
  · cases hf : findDup n st.unique with
    | none => exact h
    | some e =>
      dsimp only
      split_ifs with h2
      · rfl
      · exact h

theorem foldl_replaced_mono (l : List News) (st : DedupState)
    (h : st.replaced = true) : (l.foldl dedupStep st).replaced = true := by
  induction l generalizing st with
  | nil => exact h
  | cons x xs ih => exact ih _ (dedupStep_replaced_mono st x h)

theorem dedupStep_pairwise (st : DedupState) (n : News)
    (hrep : (dedupStep st n).replaced = false)
    (hp : st.unique.Pairwise (fun a b => is_duplicate_advanced a b = false)) :
    (dedupStep st n).unique.Pairwise
      (fun a b => is_duplicate_advanced a b = false) := by
  unfold dedupStep at hrep ⊢
  dsimp only at hrep ⊢
  split_ifs at hrep ⊢ with h1
  · exact hp
  · cases hf : findDup n st.unique with
    | none =>
      dsimp only
      apply List.pairwise_append.mpr
      refine ⟨hp, by simp, ?_⟩
      intro a ha b hb
      rw [List.mem_singleton] at hb
      rw [hb, dup_symm]
      exact findDup_none n st.unique hf a ha
    | some e =>
      rw [hf] at hrep
      dsimp only at hrep ⊢
      split_ifs at hrep ⊢ with h2
      exact hp

theorem foldl_pairwise (l : List News) (st : DedupState)
    (hrep : (l.foldl dedupStep st).replaced = false)
    (hp : st.unique.Pairwise (fun a b => is_duplicate_advanced a b = false)) :
    (l.foldl dedupStep st).unique.Pairwise
      (fun a b => is_duplicate_advanced a b = false) := by
  induction l generalizing st with
  | nil => exact hp
  | cons x xs ih =>
    rw [List.foldl_cons] at hrep ⊢
    have hstep : (dedupStep st x).replaced = false := by
      rcases Bool.eq_false_or_eq_true ((dedupStep st x).replaced) with h | h
      · exfalso
        have hmono := foldl_replaced_mono xs (dedupStep st x) h
        rw [hmono] at hrep
        cases hrep
      · exact h
    exact ih (dedupStep st x) hrep (dedupStep_pairwise st x hstep hp)

/-- C1 amended: when a run of remove_duplicates_enhanced never replaces
an accepted record by a better duplicate, no two records of the output
satisfy the duplicate verdict in either direction.  (The counterexample
shows the property fails once a replacement occurs: the replacement is
re-checked only against the one record it displaced.) -/
theorem dedup_no_survivors_without_replacement (l : List News)
    (h : dedupReplaced l = false) :
    (remove_duplicates_enhanced l).Pairwise
      (fun a b => is_duplicate_advanced a b = false ∧
        is_duplicate_advanced b a = false) := by
  have hp := foldl_pairwise
    (sortDescBy (fun a b => dateLe a.published_date b.published_date) l)
    ⟨[], [], false⟩ h List.Pairwise.nil
  exact hp.imp (fun hab => ⟨hab, by rw [dup_symm]; exact hab⟩)

/-- Witness for the no-replacement run on a two-record batch. -/
theorem dedup_no_survivors_witness :
    dedupReplaced [wA, wB] = false ∧
    (remove_duplicates_enhanced [wA, wB]).Pairwise
      (fun a b => is_duplicate_advanced a b = false ∧
        is_duplicate_advanced b a = false) :=
  ⟨by with_unfolding_all decide,
    dedup_no_survivors_without_replacement [wA, wB]
      (by with_unfolding_all decide)⟩

/-- C1 counterexample: in the batch [cxA, cxB, cxC], record cxC is
detected as a duplicate of cxA and replaces it (better weighted score),
but is never compared with cxB; the output [cxB, cxC] contains two
distinct records on which the duplicate verdict is positive. -/
theorem dedup_duplicate_survivors_cex :
    remove_duplicates_enhanced [cxA, cxB, cxC] = [cxB, cxC] ∧
    cxB ≠ cxC ∧
    is_duplicate_advanced cxB cxC = true ∧
    is_duplicate_advanced cxC cxB = true := by
  refine ⟨by with_unfolding_all decide, by decide,
    by with_unfolding_all decide, by with_unfolding_all decide⟩

theorem isUpperCh_lowCh (c : Char) : isUpperCh (lowCh c) = false := by
  unfold lowCh
  split_ifs with h
  · unfold isUpperCh at h
    rw [Bool.and_eq_true, decide_eq_true_eq, decide_eq_true_eq] at h
    have h65 : 65 ≤ c.toNat := h.1
    have h90 : c.toNat ≤ 90 := h.2
    have hv : (c.toNat + 32).isValidChar := Or.inl (by omega)
    have htn : (Char.ofNat (c.toNat + 32)).toNat = c.toNat + 32 := by
      rw [Char.ofNat, dif_pos hv]
      rfl
    have hle : ¬(Char.ofNat (c.toNat + 32) ≤ 'Z') := by
      intro hle
      have h2 : (Char.ofNat (c.toNat + 32)).toNat ≤ 90 := hle
      omega
    unfold isUpperCh
    rw [Bool.and_eq_false_iff]
    right
    rw [decide_eq_false_iff_not]
    exact hle
  · simpa using h

theorem lowCh_fixed (c : Char) (h : isUpperCh c = false) : lowCh c = c := by
  unfold lowCh
  rw [if_neg (by simp [h])]

theorem dropWhile_head_false (p : Char → Bool) (l : List Char) :
    ∀ c, (l.dropWhile p).head? = some c → p c = false := by
  induction l with
  | nil => intro c hc; cases hc
  | cons d ds ih =>
    intro c hc
    rw [List.dropWhile] at hc
    cases hd : p d with
    | true =>
      rw [hd] at hc
      exact ih c hc
    | false =>
      rw [hd] at hc
      rw [List.head?_cons, Option.some.injEq] at hc
      rw [← hc]
      exact hd

theorem dropWhile_id_of_head (p : Char → Bool) (l : List Char)
    (h : ∀ c, l.head? = some c → p c = false) : l.dropWhile p = l := by
  cases l with
  | nil => rfl
  | cons d ds => rw [List.dropWhile, h d rfl]

theorem chopLead_suffix (w : List Char) : ∀ (s r : List Char),
    chopLead w s = some r → r <:+ s := by
  induction w with
  | nil =>
    intro s r h
    rw [chopLead, Option.some.injEq] at h
    exact h ▸ List.suffix_refl s
  | cons p ps ih =>
    intro s r h
    cases s with
    | nil => cases h
    | cons c cs =>
      rw [chopLead] at h
      split_ifs at h with hpc
      · exact (ih cs r h).trans (List.suffix_cons c cs)

theorem mem_stripLeadWord (w s : List Char) (c : Char)
    (h : c ∈ stripLeadWord w s) : c ∈ s := by
  unfold stripLeadWord at h
  cases hc : chopLead w s with
  | none => rw [hc] at h; exact h
  | some r =>
    rw [hc] at h
    cases r with
    | nil => exact h
    | cons c0 r' =>
      dsimp only at h
      split_ifs at h with hw
      · exact (chopLead_suffix w s (c0 :: r') hc).subset
          ((List.dropWhile_suffix isWsCh).subset h)
      · exact h

theorem mem_stripTailWord (w s : List Char) (c : Char)
    (h : c ∈ stripTailWord w s) : c ∈ s := by
  unfold stripTailWord at h
  cases hc : chopLead w.reverse s.reverse with
  | none => rw [hc] at h; exact h
  | some r =>
    rw [hc] at h
    cases r with
    | nil => exact h
    | cons c0 r' =>
      dsimp only at h
      split_ifs at h with hw
      · rw [List.mem_reverse] at h
        have h2 := (chopLead_suffix _ _ _ hc).subset
          ((List.dropWhile_suffix isWsCh).subset h)
        rwa [List.mem_reverse] at h2
      · exact h

theorem mem_pyStrip (s : List Char) (c : Char) (h : c ∈ pyStrip s) : c ∈ s := by
  unfold pyStrip at h
  have h1 := (List.dropWhile_suffix isWsCh).subset h
  rw [List.mem_reverse] at h1
  have h2 := (List.dropWhile_suffix isWsCh).subset h1
  rwa [List.mem_reverse] at h2

theorem collapse_true_ws (d : Char) (ds : List Char) (hw : isWsCh d = true) :
    collapseWsAux true (d :: ds) = collapseWsAux true ds := by
  rw [collapseWsAux, if_pos hw, if_pos rfl]

theorem collapse_false_ws (d : Char) (ds : List Char) (hw : isWsCh d = true) :
    collapseWsAux false (d :: ds) = ' ' :: collapseWsAux true ds := by
  rw [collapseWsAux, if_pos hw, if_neg Bool.false_ne_true]

theorem collapse_nonws (b : Bool) (d : Char) (ds : List Char)
    (hw : ¬isWsCh d = true) :
    collapseWsAux b (d :: ds) = d :: collapseWsAux false ds := by
  rw [collapseWsAux, if_neg hw]

theorem mem_collapseWsAux (s : List Char) : ∀ (b : Bool) (c : Char),
    c ∈ collapseWsAux b s → c = ' ' ∨ (c ∈ s ∧ isWsCh c = false) := by
  induction s with
  | nil => intro b c h; cases h
  | cons d ds ih =>
    intro b c h
    by_cases hw : isWsCh d = true
    · cases b with
      | true =>
        rw [collapse_true_ws d ds hw] at h
        rcases ih true c h with h1 | ⟨h2, h3⟩
        · exact Or.inl h1
        · exact Or.inr ⟨List.mem_cons_of_mem d h2, h3⟩
      | false =>
        rw [collapse_false_ws d ds hw] at h
        rcases List.mem_cons.mp h with h1 | h1
        · exact Or.inl h1
        · rcases ih true c h1 with h2 | ⟨h3, h4⟩
          · exact Or.inl h2
          · exact Or.inr ⟨List.mem_cons_of_mem d h3, h4⟩
    · rw [collapse_nonws b d ds hw] at h
      rcases List.mem_cons.mp h with h1 | h1
      · refine Or.inr ⟨by rw [h1]; exact List.mem_cons_self d ds, ?_⟩
        rw [h1]
        simpa using hw
      · rcases ih false c h1 with h2 | ⟨h3, h4⟩
        · exact Or.inl h2
        · exact Or.inr ⟨List.mem_cons_of_mem d h3, h4⟩

theorem mem_foldLead (ps : List (List Char)) : ∀ (s : List Char) (c : Char),
    c ∈ ps.foldl (fun acc p => stripLeadWord p acc) s → c ∈ s := by
  induction ps with
  | nil => intro s c h; exact h
  | cons q qs ih =>
    intro s c h
    exact mem_stripLeadWord q s c (ih (stripLeadWord q s) c h)

theorem mem_foldTail (ws : List (List Char)) : ∀ (s : List Char) (c : Char),
    c ∈ ws.foldl (fun acc w => stripTailWord w acc) s → c ∈ s := by
  induction ws with
  | nil => intro s c h; exact h
  | cons q qs ih =>
    intro s c h
    exact mem_stripTailWord q s c (ih (stripTailWord q s) c h)

theorem nbw_flip {a b : Char} (h : NBW a b) : flip NBW a b := by
  intro hcon
  exact h ⟨hcon.2, hcon.1⟩

theorem chain_reverse_nbw (x : List Char) (h : List.Chain' NBW x) :
    List.Chain' NBW x.reverse := by
  rw [List.chain'_reverse]
  exact h.imp (fun _ _ hab => nbw_flip hab)

theorem collapseAux_true_head (x : List Char) :
    ∀ c, (collapseWsAux true x).head? = some c → isWsCh c = false := by
  induction x with
  | nil => intro c hc; cases hc
  | cons d ds ih =>
    intro c hc
    by_cases hw : isWsCh d = true
    · rw [collapse_true_ws d ds hw] at hc
      exact ih c hc
    · rw [collapse_nonws true d ds hw] at hc
      rw [List.head?_cons, Option.some.injEq] at hc
      rw [← hc]
      simpa using hw

theorem collapseAux_chain (x : List Char) : ∀ b : Bool,
    List.Chain' NBW (collapseWsAux b x) := by
  induction x with
  | nil => intro b; simp [collapseWsAux]
  | cons d ds ih =>
    intro b
    by_cases hw : isWsCh d = true
    · cases b with
      | true =>
        rw [collapse_true_ws d ds hw]
        exact ih true
      | false =>
        rw [collapse_false_ws d ds hw]
        apply List.chain'_cons'.mpr
        refine ⟨?_, ih true⟩
        intro e he
        intro hcon
        have h2 := collapseAux_true_head ds e he
        rw [h2] at hcon
        cases hcon.2
    · rw [collapse_nonws b d ds hw]
      apply List.chain'_cons'.mpr
      refine ⟨?_, ih false⟩
      intro e he
      intro hcon
      exact hw hcon.1

theorem chain_stripLead (w x : List Char) (h : List.Chain' NBW x) :
    List.Chain' NBW (stripLeadWord w x) := by
  unfold stripLeadWord
  cases hc : chopLead w x with
  | none => exact h
  | some r =>
    cases r with
    | nil => exact h
    | cons c0 r' =>
      dsimp only
      split_ifs with hw
      · exact (h.suffix (chopLead_suffix w x (c0 :: r') hc)).suffix
          (List.dropWhile_suffix isWsCh)
      · exact h

theorem chain_stripTail (w x : List Char) (h : List.Chain' NBW x) :
    List.Chain' NBW (stripTailWord w x) := by
  unfold stripTailWord
  cases hc : chopLead w.reverse x.reverse with
  | none => exact h
  | some r =>
    cases r with
    | nil => exact h
    | cons c0 r' =>
      dsimp only
      split_ifs with hw
      · apply chain_reverse_nbw
        exact ((chain_reverse_nbw x h).suffix
          (chopLead_suffix _ _ _ hc)).suffix (List.dropWhile_suffix isWsCh)
      · exact h

theorem chain_pyStrip (x : List Char) (h : List.Chain' NBW x) :
    List.Chain' NBW (pyStrip x) := by
  unfold pyStrip
  exact ((chain_reverse_nbw _ ((chain_reverse_nbw x h).suffix
    (List.dropWhile_suffix isWsCh)))).suffix (List.dropWhile_suffix isWsCh)

theorem chain_foldLead (ps : List (List Char)) : ∀ x : List Char,
    List.Chain' NBW x →
    List.Chain' NBW (ps.foldl (fun acc p => stripLeadWord p acc) x) := by
  induction ps with
  | nil => intro x h; exact h
  | cons q qs ih => intro x h; exact ih _ (chain_stripLead q x h)

theorem chain_foldTail (ws : List (List Char)) : ∀ x : List Char,
    List.Chain' NBW x →
    List.Chain' NBW (ws.foldl (fun acc w => stripTailWord w acc) x) := by
  induction ws with
  | nil => intro x h; exact h
  | cons q qs ih => intro x h; exact ih _ (chain_stripTail q x h)

theorem normTitleEq (s : List Char) : normalize_title s =
    pyStrip (boilerTails.foldl (fun acc w => stripTailWord w acc)
      (boilerLeads.foldl (fun acc p => stripLeadWord p acc)
        (collapseWsAux false ((pyStrip (pyLower s)).map
          (fun c => if isTitleKeep c then c else ' '))))) := rfl

theorem chain_stage1 (ps ws : List (List Char)) (y : List Char) :
    List.Chain' NBW (ws.foldl (fun acc w => stripTailWord w acc)
      (ps.foldl (fun acc p => stripLeadWord p acc) (collapseWsAux false y))) :=
  chain_foldTail ws (ps.foldl (fun acc p => stripLeadWord p acc)
      (collapseWsAux false y))
    (chain_foldLead ps (collapseWsAux false y) (collapseAux_chain y false))

theorem chain_stage2 (ps ws : List (List Char)) (y : List Char) :
    List.Chain' NBW (pyStrip (ws.foldl (fun acc w => stripTailWord w acc)
      (ps.foldl (fun acc p => stripLeadWord p acc) (collapseWsAux false y)))) :=
  chain_pyStrip (ws.foldl (fun acc w => stripTailWord w acc)
      (ps.foldl (fun acc p => stripLeadWord p acc) (collapseWsAux false y)))
    (chain_stage1 ps ws y)

theorem norm_chain (s : List Char) : List.Chain' NBW (normalize_title s) := by
  rw [normTitleEq]
  with_reducible exact chain_stage2 boilerLeads boilerTails ((pyStrip (pyLower s)).map (fun c => if isTitleKeep c then c else ' '))

theorem norm_noLead (s : List Char) :
    ∀ c, (normalize_title s).head? = some c → isWsCh c = false := by
  unfold normalize_title
  dsimp only
  intro c hc
  unfold pyStrip at hc
  exact dropWhile_head_false isWsCh _ c hc

theorem pyStrip_getLast (x : List Char) :
    ∀ c, (pyStrip x).getLast? = some c → isWsCh c = false := by
  intro c hc
  unfold pyStrip at hc
  have hne : List.dropWhile isWsCh
      ((List.dropWhile isWsCh x.reverse).reverse) ≠ [] := by
    intro he
    rw [he] at hc
    cases hc
  obtain ⟨u, hu⟩ :=
    List.dropWhile_suffix (l := (List.dropWhile isWsCh x.reverse).reverse) isWsCh
  have h2 : ((List.dropWhile isWsCh x.reverse).reverse).getLast? = some c := by
    rw [← hu, List.getLast?_append_of_ne_nil u hne]
    exact hc
  rw [← List.head?_reverse, List.reverse_reverse] at h2
  exact dropWhile_head_false isWsCh _ c h2

theorem norm_noTrail (s : List Char) :
    ∀ c, (normalize_title s).getLast? = some c → isWsCh c = false := by
  unfold normalize_title
  dsimp only
  intro c hc
  exact pyStrip_getLast _ c hc

theorem norm_chars (s : List Char) : ∀ c ∈ normalize_title s,
    isUpperCh c = false ∧ isTitleKeep c = true ∧ (isWsCh c = true → c = ' ') := by
  intro c hc
  unfold normalize_title at hc
  dsimp only at hc
  have h1 := mem_pyStrip _ _ hc
  have h2 := mem_foldTail _ _ _ h1
  have h3 := mem_foldLead _ _ _ h2
  rcases mem_collapseWsAux _ false c h3 with h4 | ⟨h5, h6⟩
  · subst h4
    exact ⟨by decide, by decide, fun _ => rfl⟩
  · rcases List.mem_map.mp h5 with ⟨d, hd, hdc⟩
    by_cases hk : isTitleKeep d = true
    · rw [if_pos hk] at hdc
      subst hdc
      have h7 := mem_pyStrip _ _ hd
      rcases List.mem_map.mp h7 with ⟨e, _, he⟩
      refine ⟨?_, hk, ?_⟩
      · rw [← he]
        exact isUpperCh_lowCh e
      · intro hwc
        rw [h6] at hwc
        cases hwc
    · rw [if_neg hk] at hdc
      subst hdc
      exact ⟨by decide, by decide, fun _ => rfl⟩

theorem pyLower_id_of (t : List Char) (h : ∀ c ∈ t, isUpperCh c = false) :
    pyLower t = t := by
  unfold pyLower
  have h2 : t.map lowCh = t.map id :=
    List.map_congr_left (fun c hc => lowCh_fixed c (h c hc))
  rw [h2, List.map_id]

theorem punct_id_of (t : List Char) (h : ∀ c ∈ t, isTitleKeep c = true) :
    t.map (fun c => if isTitleKeep c then c else ' ') = t := by
  have h2 : t.map (fun c => if isTitleKeep c then c else ' ') = t.map id :=
    List.map_congr_left (fun c hc => if_pos (h c hc))
  rw [h2, List.map_id]

theorem pyStrip_id_of (t : List Char)
    (h1 : ∀ c, t.head? = some c → isWsCh c = false)
    (h2 : ∀ c, t.getLast? = some c → isWsCh c = false) : pyStrip t = t := by
  unfold pyStrip
  have hrev : List.dropWhile isWsCh t.reverse = t.reverse := by
    apply dropWhile_id_of_head
    intro c hc
    rw [List.head?_reverse] at hc
    exact h2 c hc
  rw [hrev, List.reverse_reverse]
  exact dropWhile_id_of_head _ _ h1

theorem collapse_id_of (t : List Char) : ∀ b : Bool,
    List.Chain' NBW t → (∀ c ∈ t, isWsCh c = true → c = ' ') →
    (b = true → ∀ c, t.head? = some c → isWsCh c = false) →
    collapseWsAux b t = t := by
  induction t with
  | nil => intro b _ _ _; rfl
  | cons d ds ih =>
    intro b hch hsp hb
    by_cases hw : isWsCh d = true
    · cases b with
      | true =>
        have h3 := hb rfl d rfl
        rw [hw] at h3
        cases h3
      | false =>
        rw [collapse_false_ws d ds hw]
        have hd : d = ' ' := hsp d (List.mem_cons_self d ds) hw
        rw [hd]
        congr 1
        apply ih true
        · exact (List.chain'_cons'.mp hch).2
        · intro c hc hcw
          exact hsp c (List.mem_cons_of_mem d hc) hcw
        · intro _ c hc
          have h3 := (List.chain'_cons'.mp hch).1 c (by simp [hc])
          by_contra hcc
          exact h3 ⟨hw, by simpa using hcc⟩
    · rw [collapse_nonws b d ds hw]
      congr 1
      apply ih false
      · exact (List.chain'_cons'.mp hch).2
      · intro c hc hcw
        exact hsp c (List.mem_cons_of_mem d hc) hcw
      · intro hfalse
        cases hfalse

theorem foldLead_id (ps : List (List Char)) (t : List Char) :
    (∀ p ∈ ps, stripLeadWord p t = t) →
    ps.foldl (fun acc p => stripLeadWord p acc) t = t := by
  induction ps with
  | nil => intro _; rfl
  | cons q qs ih =>
    intro h
    rw [List.foldl_cons, h q (List.mem_cons_self q qs)]
    exact ih (fun p hp => h p (List.mem_cons_of_mem q hp))

theorem foldTail_id (ws : List (List Char)) (t : List Char) :
    (∀ w ∈ ws, stripTailWord w t = t) →
    ws.foldl (fun acc w => stripTailWord w acc) t = t := by
  induction ws with
  | nil => intro _; rfl
  | cons q qs ih =>
    intro h
    rw [List.foldl_cons, h q (List.mem_cons_self q qs)]
    exact ih (fun p hp => h p (List.mem_cons_of_mem q hp))

theorem norm_pyLower_id (s : List Char) :
    pyLower (normalize_title s) = normalize_title s :=
  pyLower_id_of (normalize_title s) (fun c hc => (norm_chars s c hc).1)

theorem norm_pyStrip_id (s : List Char) :
    pyStrip (normalize_title s) = normalize_title s :=
  pyStrip_id_of (normalize_title s) (norm_noLead s) (norm_noTrail s)

theorem norm_punct_id (s : List Char) :
    (normalize_title s).map (fun c => if isTitleKeep c then c else ' ') =
      normalize_title s :=
  punct_id_of (normalize_title s) (fun c hc => (norm_chars s c hc).2.1)

theorem noDoubleWs_iff (l : List Char) :
    noDoubleWs l = true ↔ List.Chain' NBW l := by
  induction l with
  | nil => simp [noDoubleWs]
  | cons a t ih =>
    cases t with
    | nil => simp [noDoubleWs, NBW]
    | cons b r =>
      rw [List.chain'_cons]
      rw [show noDoubleWs (a :: b :: r) =
        (!(isWsCh a && isWsCh b) && noDoubleWs (b :: r)) from rfl]
      rw [Bool.and_eq_true, ih]
      constructor
      · rintro ⟨hn, hc⟩
        refine ⟨fun hab => ?_, hc⟩
        rw [hab.1, hab.2] at hn
        exact absurd hn (by decide)
      · rintro ⟨hnbw, hc⟩
        refine ⟨?_, hc⟩
        cases hwa : isWsCh a
        · rfl
        · cases hwb : isWsCh b
          · rfl
          · exact (hnbw ⟨hwa, hwb⟩).elim

theorem norm_noDouble (s : List Char) :
    noDoubleWs (normalize_title s) = true := by
  rw [noDoubleWs_iff]
  with_reducible exact norm_chain s

theorem collapse_id_of2 (t : List Char) (hch : noDoubleWs t = true)
    (hsp : ∀ c ∈ t, isWsCh c = true → c = ' ') :
    collapseWsAux false t = t :=
  collapse_id_of t false ((noDoubleWs_iff t).mp hch) hsp
    (fun hf => (Bool.false_ne_true hf).elim)

theorem norm_collapse_id (s : List Char) :
    collapseWsAux false (normalize_title s) = normalize_title s :=
  collapse_id_of2 (normalize_title s) (norm_noDouble s)
    (fun c hc => (norm_chars s c hc).2.2)

/-- C4 amended: normalize_title is idempotent exactly on the inputs
whose normalized form carries no further strippable boilerplate: when no
boilerplate word (with following whitespace) leads the normalized title
and none (with preceding whitespace) trails it, a second application is
the identity.  (The counterexample shows idempotence fails in general:
stripping is one anchored pass per word in a fixed order, so stacked
prefixes such as "breaking exclusive ..." survive one pass and are
stripped by the next.) -/
theorem normalize_title_idem_of_no_boilerplate (s : List Char)
    (h1 : ∀ p ∈ boilerLeads,
      stripLeadWord p (normalize_title s) = normalize_title s)
    (h2 : ∀ w ∈ boilerTails,
      stripTailWord w (normalize_title s) = normalize_title s) :
    normalize_title (normalize_title s) = normalize_title s := by
  rw [normTitleEq (normalize_title s), norm_pyLower_id s, norm_pyStrip_id s,
    norm_punct_id s, norm_collapse_id s,
    foldLead_id boilerLeads (normalize_title s) h1,
    foldTail_id boilerTails (normalize_title s) h2, norm_pyStrip_id s]

/-- Witness for the amended idempotence at the title "hello world". -/
theorem normalize_title_idem_witness :
    normalize_title (normalize_title (strL "hello world")) =
      normalize_title (strL "hello world") :=
  normalize_title_idem_of_no_boilerplate (strL "hello world")
    (by decide) (by decide)

/-- C4 counterexample: "breaking exclusive tour" normalizes to
"exclusive tour" (the pass for "exclusive" ran before "breaking"
uncovered it), and a second application strips further, to "tour". -/
theorem normalize_title_not_idempotent_cex :
    normalize_title (strL "breaking exclusive tour") = strL "exclusive tour" ∧
    normalize_title (normalize_title (strL "breaking exclusive tour")) =
      strL "tour" ∧
    normalize_title (normalize_title (strL "breaking exclusive tour")) ≠
      normalize_title (strL "breaking exclusive tour") := by
  refine ⟨by decide, by decide, by decide⟩
